import Mathlib

/-!
Fetch-and-render handlers of the ProgrammationWeb2023 exercises.

A shallow embedding of the five script files

* `02-03 JS/solutions/Boufous/script.js`   (cat-fact feed, promise chain with `.catch`)
* `02-03 JS/solutions/Lahbabi/cat.js`      (cat-fact feed, `async` function with `try`/`catch`)
* `02-03 JS/solutions/Lahbabi/gender.js`   (gender lookup, promise chain with `.catch`)
* `02-03 JS/solutions/Chejjari/main.js`    (`getNewFact` and `genderize`, no rejection handler)
* `05-11 React/Projectsample/myapp/src/App.js` (message list effect, no rejection handler)

The file has five layers: the JavaScript values the handlers compute with (numbers,
strings, parsed JSON), the settled outcome of `fetch(..).then(r => r.json())`, the nodes
an `innerHTML` or `innerText` assignment builds, the part of the DOM each page touches, and
the handlers themselves together with the event loop that interleaves clicks, arriving
responses and timers.
-/

namespace JS

/-! ## Numbers (IEEE 754 binary64, as ECMAScript `Number`) -/

/-- An ECMAScript Number. `fin neg m e` is the finite value `(-1)^neg * m * 2^e`; the
canonical form produced by `roundQuotient` has `m < 2^53`, `e ≥ -1074`, `2^52 ≤ m` unless
`e = -1074`, and zero as `fin neg 0 0`. -/
inductive Number
  | nan
  | inf (neg : Bool)
  | fin (neg : Bool) (m : Nat) (e : Int)
deriving DecidableEq, Repr

namespace Number

/-- Number of binary digits of `n`, computed with `fuel` halvings. -/
def bitsAux : Nat → Nat → Nat
  | 0, _ => 0
  | fuel + 1, n => if n = 0 then 0 else bitsAux fuel (n / 2) + 1

/-- Number of binary digits of `n` (`0` for `0`). -/
def bits (n : Nat) : Nat := bitsAux n n

/-- Quotient `num / den` rounded to the nearest integer, ties to the even one. -/
def divRoundEven (num den : Nat) : Nat :=
  let q := num / den
  let r := num % den
  if 2 * r < den then q
  else if den < 2 * r then q + 1
  else if q % 2 = 0 then q else q + 1

/-- The Number nearest to `(-1)^neg * num / den` (round to nearest, ties to even, gradual
underflow, overflow to infinity). `den` is positive at every call. -/
def roundQuotient (neg : Bool) (num den : Nat) : Number :=
  if num = 0 then fin neg 0 0 else
  let l : Int := (bits num : Int) - (bits den : Int)
  let ge : Bool :=
    if 0 ≤ l then decide (den * 2 ^ l.toNat ≤ num) else decide (den ≤ num * 2 ^ (-l).toNat)
  -- `fl` is the floor of the binary logarithm of `num / den`
  let fl : Int := if ge then l else l - 1
  let e : Int := max (fl - 52) (-1074)
  let m : Nat :=
    if 0 ≤ e then divRoundEven num (den * 2 ^ e.toNat)
    else divRoundEven (num * 2 ^ (-e).toNat) den
  if m = 0 then fin neg 0 0
  else if m = 2 ^ 53 then (if 971 < e + 1 then inf neg else fin neg (2 ^ 52) (e + 1))
  else if 971 < e then inf neg else fin neg m e

/-- The Number nearest to `(-1)^neg * m * 2^e2 * 10^e10`. -/
def ofScaled (neg : Bool) (m : Nat) (e2 e10 : Int) : Number :=
  roundQuotient neg (m * 2 ^ e2.toNat * 10 ^ e10.toNat) (2 ^ (-e2).toNat * 10 ^ (-e10).toNat)

/-- The Number of a non-negative integer literal. -/
def ofNat (n : Nat) : Number := ofScaled false n 0 0

/-- The Number of the decimal literal `m * 10^e10`, as `JSON.parse` reads it. -/
def ofDecimal (m : Nat) (e10 : Int) : Number := ofScaled false m 0 e10

/-- ECMAScript `Number::multiply`. -/
def mul : Number → Number → Number
  | nan, _ => nan
  | _, nan => nan
  | inf a, inf b => inf (a != b)
  | inf a, fin b m _ => if m = 0 then nan else inf (a != b)
  | fin a m _, inf b => if m = 0 then nan else inf (a != b)
  | fin a m e, fin b n f => ofScaled (a != b) (m * n) (e + f) 0

/-- Smallest `j ≥ start` with `den ≤ num * 10^j`, searched with `fuel` steps. -/
def scaleSearch : Nat → Nat → Nat → Nat → Nat
  | 0, j, _, _ => j
  | fuel + 1, j, num, den => if den ≤ num * 10 ^ j then j else scaleSearch fuel (j + 1) num den

/-- The integer `n` with `10^(n-1) ≤ num / den < 10^n`, for a positive finite Number. -/
def decimalExponent (num den : Nat) : Int :=
  if den ≤ num then ((num / den).repr.length : Int)
  else 1 - (scaleSearch 400 1 num den : Int)

/-- Digits `s` and exponent `t` of the shortest decimal `s * 10^t` that reads back as the
positive Number `x = num / den`; `k` is the number of digits tried, `n0` the decimal
exponent. Of two candidates with `k` digits the one nearer to `x` wins, the even one on a
tie. -/
def shortestAux (x : Number) (num den : Nat) (n0 : Int) : Nat → Nat → Nat × Int
  | 0, k => (num * 10 ^ (k - n0).toNat / (den * 10 ^ (n0 - k).toNat), n0 - k)
  | fuel + 1, k =>
    let t : Int := n0 - k
    let a := num * 10 ^ (-t).toNat
    let b := den * 10 ^ t.toNat
    let lo := a / b
    let hi := lo + 1
    let okLo := decide (0 < lo) && decide (ofScaled false lo 0 t = x)
    let okHi := decide (ofScaled false hi 0 t = x)
    if okLo && okHi then
      (if 2 * a < (lo + hi) * b then (lo, t)
       else if (lo + hi) * b < 2 * a then (hi, t)
       else if lo % 2 = 0 then (lo, t) else (hi, t))
    else if okLo then (lo, t)
    else if okHi then (hi, t)
    else shortestAux x num den n0 fuel (k + 1)

/-- Removes the trailing zeros of `s`, moving them into the exponent. -/
def stripZeros : Nat → Nat → Int → Nat × Int
  | 0, s, t => (s, t)
  | fuel + 1, s, t => if s ≠ 0 ∧ s % 10 = 0 then stripZeros fuel (s / 10) (t + 1) else (s, t)

/-- A string of `n` zeros. -/
def zeros (n : Nat) : String := String.mk (List.replicate n '0')

/-- ECMAScript `Number::toString` (radix 10) of the positive finite value `m * 2^e`. -/
def positiveToString (m : Nat) (e : Int) : String :=
  let num := m * 2 ^ e.toNat
  let den := 2 ^ (-e).toNat
  let x := roundQuotient false num den
  let n0 := decimalExponent num den
  let st := shortestAux x num den n0 17 1
  let st := stripZeros 20 st.1 st.2
  let digits := st.1.repr
  let k : Int := digits.length
  let n : Int := st.2 + k
  if k ≤ n ∧ n ≤ 21 then digits ++ zeros (n - k).toNat
  else if 0 < n ∧ n ≤ 21 then
    String.mk (digits.data.take n.toNat) ++ "." ++ String.mk (digits.data.drop n.toNat)
  else if -6 < n ∧ n ≤ 0 then "0." ++ zeros (-n).toNat ++ digits
  else
    let ex := n - 1
    let sign := if ex < 0 then "-" else "+"
    let mant :=
      if k = 1 then digits
      else String.mk (digits.data.take 1) ++ "." ++ String.mk (digits.data.drop 1)
    mant ++ "e" ++ sign ++ ex.natAbs.repr

/-- ECMAScript `Number::toString` with radix 10. -/
def toString : Number → String
  | nan => "NaN"
  | inf false => "Infinity"
  | inf true => "-Infinity"
  | fin neg m e =>
    if m = 0 then "0"
    else (if neg then "-" else "") ++ positiveToString m e

end Number

/-! ## Strings -/

/-- ECMAScript `WhiteSpace` and `LineTerminator` code points: what `String.prototype.trim`
strips and what `StringToNumber` skips. -/
def isWhiteSpace (c : Char) : Bool :=
  let n := c.toNat
  n = 0x09 || n = 0x0A || n = 0x0B || n = 0x0C || n = 0x0D || n = 0x20 || n = 0xA0 ||
  n = 0x1680 || (0x2000 ≤ n && n ≤ 0x200A) || n = 0x2028 || n = 0x2029 || n = 0x202F ||
  n = 0x205F || n = 0x3000 || n = 0xFEFF

/-- The method `String.prototype.trim`. -/
def trim (s : String) : String :=
  String.mk ((s.data.dropWhile isWhiteSpace).reverse.dropWhile isWhiteSpace).reverse

/-- Value of a digit in the given radix, if the character is one. -/
def digitValue (radix : Nat) (c : Char) : Option Nat :=
  let n := c.toNat
  let v :=
    if 48 ≤ n ∧ n ≤ 57 then some (n - 48)
    else if 97 ≤ n ∧ n ≤ 102 then some (n - 87)
    else if 65 ≤ n ∧ n ≤ 70 then some (n - 55)
    else none
  v.bind fun d => if d < radix then some d else none

/-- Leading digits of a character list in the given radix, and the rest. -/
def spanDigits (radix : Nat) : List Char → List Nat × List Char
  | [] => ([], [])
  | c :: cs =>
    match digitValue radix c with
    | some d => ((spanDigits radix cs).1.cons d, (spanDigits radix cs).2)
    | none => ([], c :: cs)

/-- Value of a digit list, most significant digit first. -/
def digitsValue (radix : Nat) (ds : List Nat) : Nat :=
  ds.foldl (fun acc d => acc * radix + d) 0

/-- A whole string of digits in the given radix (`0x`, `0o`, `0b` literals after the
radix marker). -/
def parseRadix (radix : Nat) (cs : List Char) : Number :=
  match spanDigits radix cs with
  | (d :: ds, []) => Number.ofNat (digitsValue radix (d :: ds))
  | _ => Number.nan

/-- Optional `ExponentPart` that has to end the string: the exponent it denotes. -/
def parseExponent : List Char → Option Int
  | [] => some 0
  | c :: r =>
    if c = 'e' ∨ c = 'E' then
      let (neg, r) :=
        match r with
        | '+' :: r => (false, r)
        | '-' :: r => (true, r)
        | r => (false, r)
      match spanDigits 10 r with
      | (d :: ds, []) =>
        let v : Int := digitsValue 10 (d :: ds)
        some (if neg then -v else v)
      | _ => none
    else none

/-- A `StrUnsignedDecimalLiteral` covering the whole list: mantissa and decimal exponent. -/
def parseDecimal (cs : List Char) : Option (Nat × Int) :=
  let (ip, r1) := spanDigits 10 cs
  let (fp, r2) :=
    match r1 with
    | '.' :: r => spanDigits 10 r
    | r => ([], r)
  if ip = [] ∧ fp = [] then none
  else (parseExponent r2).map fun ex => (digitsValue 10 (ip ++ fp), ex - (fp.length : Int))

/-- ECMAScript `StringToNumber`. -/
def stringToNumber (s : String) : Number :=
  match (trim s).data with
  | [] => Number.fin false 0 0
  | '0' :: 'x' :: r => parseRadix 16 r
  | '0' :: 'X' :: r => parseRadix 16 r
  | '0' :: 'o' :: r => parseRadix 8 r
  | '0' :: 'O' :: r => parseRadix 8 r
  | '0' :: 'b' :: r => parseRadix 2 r
  | '0' :: 'B' :: r => parseRadix 2 r
  | cs =>
    let (neg, r) :=
      match cs with
      | '+' :: r => (false, r)
      | '-' :: r => (true, r)
      | r => (false, r)
    if r = "Infinity".data then Number.inf neg
    else
      match parseDecimal r with
      | some (m, ex) => Number.ofScaled neg m 0 ex
      | none => Number.nan

/-! ## Values -/

/-- What `response.json()` can resolve with (a parsed JSON text), extended with
`undefined`, the value of a property that is not there. -/
inductive Value
  | undefined
  | null
  | bool (b : Bool)
  | num (x : Number)
  | str (s : String)
  | arr (items : List Value)
  | obj (props : List (String × Value))

mutual
/-- ECMAScript `ToString`, as applied by template literals and by WebIDL `DOMString`
conversion. An array is joined with commas (`Array.prototype.toString`), a plain object
is `[object Object]`. -/
def Value.toStr : Value → String
  | .undefined => "undefined"
  | .null => "null"
  | .bool b => if b then "true" else "false"
  | .num x => x.toString
  | .str s => s
  | .arr items => Value.join items
  | .obj _ => "[object Object]"
/-- The method `Array.prototype.join` with the default separator: `undefined` and `null` elements
are empty. -/
def Value.join : List Value → String
  | [] => ""
  | [x] =>
    match x with
    | .undefined => ""
    | .null => ""
    | y => Value.toStr y
  | x :: y :: r =>
    (match x with
      | .undefined => ""
      | .null => ""
      | z => Value.toStr z) ++ "," ++ Value.join (y :: r)
end

/-- ECMAScript `ToNumber`. An array or object goes through its string form. -/
def Value.toNumber : Value → Number
  | .undefined => Number.nan
  | .null => Number.fin false 0 0
  | .bool b => if b then Number.ofNat 1 else Number.fin false 0 0
  | .num x => x
  | .str s => stringToNumber s
  | .arr items => stringToNumber (Value.join items)
  | .obj _ => Number.nan

/-- What a handler can throw or a promise can reject with. -/
inductive Error
  | network      -- `fetch` rejected
  | badJSON      -- `response.json()` rejected: the body is not JSON
  | typeError    -- a TypeError raised while the handler's own code runs
deriving DecidableEq, Repr

/-- Property read `v.key`, for a key that no built-in prototype defines (`fact`, `gender`,
`probability`). Reading a property of `null` or `undefined` throws; a primitive or an
array has no such property; in an object the last entry with that key is the one
`JSON.parse` kept. -/
def Value.get (v : Value) (key : String) : Except Error Value :=
  match v with
  | .undefined => .error .typeError
  | .null => .error .typeError
  | .obj props => .ok ((props.reverse.lookup key).getD .undefined)
  | _ => .ok .undefined

/-- WebIDL `[LegacyNullToEmptyString] DOMString` conversion, used by the `innerHTML` and
`innerText` setters. -/
def Value.toLegacyDOMString : Value → String
  | .null => ""
  | v => v.toStr

end JS

open JS

/-! ## Settled requests and promise reactions -/

/-- How `fetch(url).then(response => response.json())` settles. A response with an HTTP
error status and a JSON body counts as `json`: no handler looks at `response.ok`. -/
inductive Fetched
  | failed                 -- `fetch` rejects
  | malformed              -- `response.json()` rejects
  | json (data : Value)    -- the body parsed to `data`

/-- The settled promise as a value or a rejection reason. -/
def Fetched.outcome : Fetched → Except Error Value
  | .failed => .error .network
  | .malformed => .error .badJSON
  | .json data => .ok data

/-- The reaction `promise.then(f)`: `f` runs on the page when the promise is fulfilled, a rejection
passes through. The page travels with the settled result. -/
def andThen {σ α β : Type} (pr : Except Error α × σ) (f : α → σ → Except Error β × σ) :
    Except Error β × σ :=
  match pr with
  | (.ok a, page) => f a page
  | (.error err, page) => (.error err, page)

/-- The reaction `promise.catch(h)`, and the `catch` block of a `try`: `h` runs when the promise is
rejected. -/
def orCatch {σ α : Type} (pr : Except Error α × σ) (h : Error → σ → Except Error Unit × σ) :
    Except Error Unit × σ :=
  match pr with
  | (.ok _, page) => (.ok (), page)
  | (.error err, page) => h err page

/-! ## What an `innerHTML` or `innerText` assignment builds -/

namespace HTML

/-- A node of the subtree an assignment builds. -/
inductive Tree
  | text (data : String)
  | element (tag : String) (children : List Tree)

mutual
/-- The DOM property `textContent` of a node: the text data of its descendants, in tree
order. -/
def Tree.textContent : Tree → String
  | .text data => data
  | .element _ children => textContent children
/-- The property `textContent` of a container with these child nodes. -/
def textContent : List Tree → String
  | [] => ""
  | t :: ts => t.textContent ++ textContent ts
end

/-- Escaping of text data by the HTML fragment serialisation algorithm. -/
def escapeText (data : String) : String :=
  data.data.foldr (fun c acc =>
    (if c = '&' then "&amp;"
     else if c = '<' then "&lt;"
     else if c = '>' then "&gt;"
     else if c.toNat = 0xA0 then "&nbsp;"
     else String.singleton c) ++ acc) ""

mutual
/-- The HTML fragment serialisation of a node (elements here have no attributes; `br` is
a void element). -/
def Tree.serialize : Tree → String
  | .text data => escapeText data
  | .element tag children =>
    if tag = "br" then "<br>" else "<" ++ tag ++ ">" ++ serialize children ++ "</" ++ tag ++ ">"
/-- What the `innerHTML` getter returns for a container with these child nodes. -/
def serialize : List Tree → String
  | [] => ""
  | t :: ts => t.serialize ++ serialize ts
end

/-- Character-data insertion: the character joins the text node that is the last child,
or starts a new text node. Children are kept latest first. -/
def emit (c : Char) : List Tree → List Tree
  | .text data :: rest => .text (data.push c) :: rest
  | children => .text (String.singleton c) :: children

/-- States of the tokenizer, for the part of HTML that is modelled. -/
inductive Mode
  | data
  | ampersand                      -- after `&`
  | reference (name : List Char)   -- after `&` and the first characters of a name
  | tagOpen                        -- after `<`
  | startTag (name : List Char)    -- in the name of a start tag
  | endTagOpen                     -- after `</`
  | endTag (name : List Char)      -- in the name of an end tag

/-- State of the fragment parser. -/
structure Builder where
  /-- Tokenizer state. -/
  mode : Mode
  /-- Children of the innermost open node so far, latest first. -/
  current : List Tree
  /-- The open elements, innermost first: each with its tag and the children its parent
  had before it, latest first. -/
  stack : List (String × List Tree)

/-- Elements the model parses: their start and end tags do nothing but open and close the
element when tags are properly nested. -/
def supportedTags : List String := ["b", "i", "em", "strong", "u", "span"]

/-- Named character references the model knows, by name. -/
def namedReference (name : String) : Option Char :=
  if name = "amp" then some '&'
  else if name = "lt" then some '<'
  else if name = "gt" then some '>'
  else if name = "quot" then some '"'
  else if name = "nbsp" then some (Char.ofNat 0xA0)
  else none

/-- The data state on one character: `&` and `<` switch state, U+0000 is dropped by the
tree builder, any other character is inserted. -/
def dataChar (b : Builder) (c : Char) : Builder :=
  if c = '&' then { b with mode := .ampersand }
  else if c = '<' then { b with mode := .tagOpen }
  else if c.toNat = 0 then { b with mode := .data }
  else { b with mode := .data, current := emit c b.current }

/-- One character through tokenizer and tree builder; `none` when the input leaves the
part of HTML that is modelled (comments, attributes, other elements, misnested tags,
numeric and other named character references). -/
def stepChar (b : Builder) (c : Char) : Option Builder :=
  match b.mode with
  | .data => some (dataChar b c)
  | .ampersand =>
    if c.isAlphanum then some { b with mode := .reference [c] }
    else if c = '#' then none
    else some (dataChar { b with current := emit '&' b.current } c)
  | .reference name =>
    if c.isAlphanum then some { b with mode := .reference (name ++ [c]) }
    else if c = ';' then
      (namedReference (String.mk name)).map fun r =>
        { b with mode := .data, current := emit r b.current }
    else none
  | .tagOpen =>
    if c.isAlpha then some { b with mode := .startTag [c.toLower] }
    else if c = '/' then some { b with mode := .endTagOpen }
    else if c = '!' ∨ c = '?' then none
    else some (dataChar { b with current := emit '<' b.current } c)
  | .startTag name =>
    if c.isAlphanum then some { b with mode := .startTag (name ++ [c.toLower]) }
    else if c = '>' ∧ String.mk name ∈ supportedTags then
      some { mode := .data, current := [], stack := (String.mk name, b.current) :: b.stack }
    else none
  | .endTagOpen =>
    if c.isAlpha then some { b with mode := .endTag [c.toLower] } else none
  | .endTag name =>
    if c.isAlphanum then some { b with mode := .endTag (name ++ [c.toLower]) }
    else if c = '>' then
      match b.stack with
      | (tag, before) :: rest =>
        if tag = String.mk name then
          some { mode := .data, current := .element tag b.current.reverse :: before,
                 stack := rest }
        else none
      | [] => none
    else none

/-- The parser over a character list. -/
def run : Builder → List Char → Option Builder
  | b, [] => some b
  | b, c :: cs => (stepChar b c).bind fun b => run b cs

/-- Closes the elements still open at the end of the input. -/
def closeAll : List Tree → List (String × List Tree) → List Tree
  | current, [] => current.reverse
  | current, (tag, before) :: rest => closeAll (.element tag current.reverse :: before) rest

/-- End of input: a pending `<` or `&` is text; the end inside a tag or a reference is
outside the model. -/
def finish (b : Builder) : Option (List Tree) :=
  match b.mode with
  | .data => some (closeAll b.current b.stack)
  | .ampersand => some (closeAll (emit '&' b.current) b.stack)
  | .tagOpen => some (closeAll (emit '<' b.current) b.stack)
  | _ => none

/-- Newline normalisation of the parser input: CR LF and a lone CR become LF. The flag
says that the previous character was a CR. -/
def normalizeNewlines : Bool → List Char → List Char
  | _, [] => []
  | afterCR, c :: rest =>
    if c.toNat = 13 then Char.ofNat 10 :: normalizeNewlines true rest
    else if c.toNat = 10 ∧ afterCR = true then normalizeNewlines false rest
    else c :: normalizeNewlines false rest

/-- The child nodes the `innerHTML` setter gives a `div` for the markup `src` (HTML
fragment parsing), when `src` stays inside the part of HTML that is modelled. -/
def parseFragment (src : String) : Option (List Tree) :=
  (run { mode := .data, current := [], stack := [] } (normalizeNewlines false src.data)).bind
    finish

/-- The text run collected so far becomes a text node, unless it is empty. -/
def flushRun (textRun : List Char) (out : List Tree) : List Tree :=
  if textRun = [] then out else .text (String.mk textRun.reverse) :: out

/-- The rendered text fragment of the `innerText` setter: runs of characters other than
LF and CR become text nodes, each CR LF, CR or LF becomes a `br` element. `textRun` is
the current run and `out` the nodes so far, both latest first; the flag says that the
previous character was a CR. -/
def renderedAux : Bool → List Char → List Char → List Tree → List Tree
  | _, [], textRun, out => (flushRun textRun out).reverse
  | afterCR, c :: rest, textRun, out =>
    if c.toNat = 13 then
      renderedAux true rest [] (.element "br" [] :: flushRun textRun out)
    else if c.toNat = 10 then
      if afterCR = true then renderedAux false rest textRun out
      else renderedAux false rest [] (.element "br" [] :: flushRun textRun out)
    else renderedAux false rest (c :: textRun) out

/-- The child nodes the `innerText` setter gives an element for the string `text`. -/
def renderedTextFragment (text : String) : List Tree :=
  renderedAux false text.data [] []

/-- Characters that the HTML parser passes through as text in every position: anything
but `&`, `<`, U+0000 and CR. -/
def isPlainChar (c : Char) : Bool :=
  !(c = '&' || c = '<' || c.toNat = 0 || c.toNat = 13)

/-- Strings without `&`, `<`, U+0000 and CR. -/
def isPlain (s : String) : Bool := s.data.all isPlainChar

/-- Strings without a line break (LF or CR). -/
def hasNoLineBreak (s : String) : Bool := s.data.all fun c => !(c.toNat = 10 || c.toNat = 13)

/-- The child nodes that hold the string `s` as one text node (none for the empty
string). -/
def textNodes (s : String) : List Tree :=
  if s.data = [] then [] else [.text s]

end HTML

/-! ## The DOM the handlers touch -/

/-- How an element got its content: the string assigned and the property it was assigned
through. The child nodes this makes are `Content.childNodes`. -/
inductive Content
  | html (src : String)            -- assigned through `innerHTML`
  | rendered (text : String)       -- assigned through `innerText`
  | nodes (texts : List String)    -- text nodes added with `appendChild`
deriving DecidableEq, Repr

/-- An element created by a handler or present in the page; `id` is its identity as an
object (what a closure holding the element refers to). -/
structure Element where
  id : Nat
  tag : String
  classList : List String
  content : Content
deriving DecidableEq, Repr

/-- A child node of a container. -/
inductive Node
  | element (el : Element)
  | text (data : String)
deriving DecidableEq, Repr

/-- The call `document.createElement(tag)`, with the identity the page hands out. -/
def createElement (id : Nat) (tag : String) : Element :=
  { id := id, tag := tag, classList := [], content := .nodes [] }

/-- The call `el.classList.add(token)`: a token list holds a token once. -/
def Element.addClass (el : Element) (token : String) : Element :=
  if token ∈ el.classList then el else { el with classList := el.classList ++ [token] }

/-- The call `el.appendChild(document.createTextNode(data))`. -/
def Element.appendText (el : Element) (data : String) : Element :=
  match el.content with
  | .nodes texts => { el with content := .nodes (texts ++ [data]) }
  | _ => el

/-- Tag and content of a node, without identity and class list. -/
def Node.payload : Node → Option (String × Content)
  | .element el => some (el.tag, el.content)
  | .text _ => none

/-- The child nodes of an element with this content; `none` when markup assigned through
`innerHTML` is outside the part of HTML that is modelled. -/
def Content.childNodes : Content → Option (List HTML.Tree)
  | .html src => HTML.parseFragment src
  | .rendered text => some (HTML.renderedTextFragment text)
  | .nodes texts => some (texts.map .text)

/-- The DOM property `textContent` of an element. -/
def Element.textContent (el : Element) : Option String :=
  el.content.childNodes.map HTML.textContent

/-- The DOM property `textContent` of a child node of a container. -/
def Node.textContent : Node → Option String
  | .element el => el.textContent
  | .text data => some data

/-! ## Cat-fact pages: Boufous `script.js`, Lahbabi `cat.js`, Chejjari `getNewFact` -/

/-- State of a cat-fact page. -/
structure FactPage where
  /-- Child nodes of the fact container (`#fact-container`, `#facts`, the first `ul`),
  first child first. -/
  children : List Node
  /-- Identity of the next element to be created. -/
  nextId : Nat
  /-- Elements whose 100 ms timer is still to fire (Boufous). -/
  timers : List Nat
  /-- URLs passed to `fetch`, oldest first; `fetch` is always called with the URL alone,
  which makes a GET request. -/
  requests : List String
  /-- Requests in flight. -/
  pending : List Nat
  /-- Identity of the next request. -/
  nextReq : Nat
  /-- Arguments of `console.error`, oldest first. -/
  console : List Error
  /-- Rejections no handler took (`unhandledrejection`), oldest first. -/
  unhandled : List Error
deriving DecidableEq, Repr

/-- The three cat-fact scripts. -/
inductive FactScript
  | boufous
  | lahbabi
  | chejjari
deriving DecidableEq, Repr

/-- The call `fetch("https://catfact.ninja/fact")`: the call every cat-fact trigger starts with. -/
def FactPage.fetch (p : FactPage) : FactPage :=
  { p with
    requests := p.requests ++ ["https://catfact.ninja/fact"]
    pending := p.pending ++ [p.nextReq]
    nextReq := p.nextReq + 1 }

/-- The rejection handler `error => console.error(error)`. -/
def FactPage.logError (err : Error) (p : FactPage) : Except Error Unit × FactPage :=
  (.ok (), { p with console := p.console ++ [err] })

namespace Boufous

/-- Lines 7-16 of `script.js`, the reaction to the parsed body. -/
def onData (data : Value) (p : FactPage) : Except Error Unit × FactPage :=
  -- const factDiv = document.createElement("div");
  let factDiv := createElement p.nextId "div"
  let p := { p with nextId := p.nextId + 1 }
  -- factDiv.classList.add("fact");
  let factDiv := factDiv.addClass "fact"
  -- factDiv.innerHTML = data.fact;
  match data.get "fact" with
  | .error err => (.error err, p)
  | .ok fact =>
    let factDiv := { factDiv with content := .html fact.toLegacyDOMString }
    -- factContainer.prepend(factDiv);
    let p := { p with children := .element factDiv :: p.children }
    -- setTimeout(() => { factDiv.classList.add("show-fact"); }, 100);
    (.ok (), { p with timers := p.timers ++ [factDiv.id] })

/-- The promise chain of lines 5-17, once the request has settled. -/
def onSettled (r : Fetched) (p : FactPage) : Except Error Unit × FactPage :=
  orCatch (andThen (r.outcome, p) onData) FactPage.logError

end Boufous

namespace LahbabiCat

/-- Lines 10-15 of `cat.js`, the statements after the two `await`s. -/
def onData (data : Value) (p : FactPage) : Except Error Unit × FactPage :=
  -- const fact = data.fact;
  match data.get "fact" with
  | .error err => (.error err, p)
  | .ok fact =>
    -- const newFact = document.createElement("div");
    let newFact := createElement p.nextId "div"
    let p := { p with nextId := p.nextId + 1 }
    -- newFact.classList.add("fact");
    let newFact := newFact.addClass "fact"
    -- newFact.innerText = fact;
    let newFact := { newFact with content := .rendered fact.toLegacyDOMString }
    -- factsDiv.prepend(newFact);
    (.ok (), { p with children := .element newFact :: p.children })

/-- The `try` block of lines 7-15 with its `catch` of lines 16-18, once the request has
settled. -/
def onSettled (r : Fetched) (p : FactPage) : Except Error Unit × FactPage :=
  orCatch (andThen (r.outcome, p) onData) FactPage.logError

end LahbabiCat

namespace Chejjari

/-- Lines 5-10 of `main.js`, the reaction of `getNewFact` to the parsed body. -/
def getNewFact.onData (data : Value) (p : FactPage) : Except Error Unit × FactPage :=
  -- let node = document.createElement('li');
  let node := createElement p.nextId "li"
  let p := { p with nextId := p.nextId + 1 }
  -- node.appendChild(document.createTextNode(data.fact));
  match data.get "fact" with
  | .error err => (.error err, p)
  | .ok fact =>
    let node := node.appendText fact.toStr
    -- document.querySelector('ul').appendChild(node);
    (.ok (), { p with children := p.children ++ [.element node] })

/-- The promise chain of `getNewFact`, lines 3-11, once the request has settled: there is
no `.catch`. -/
def getNewFact.onSettled (r : Fetched) (p : FactPage) : Except Error Unit × FactPage :=
  andThen (r.outcome, p) getNewFact.onData

end Chejjari

/-- The promise chain of a cat-fact script. -/
def FactScript.onSettled : FactScript → Fetched → FactPage → Except Error Unit × FactPage
  | .boufous => Boufous.onSettled
  | .lahbabi => LahbabiCat.onSettled
  | .chejjari => Chejjari.getNewFact.onSettled

/-- A promise chain has run: a rejection left at its end is reported as unhandled. -/
def FactPage.finish (pr : Except Error Unit × FactPage) : FactPage :=
  match pr with
  | (.ok _, p) => p
  | (.error err, p) => { p with unhandled := p.unhandled ++ [err] }

/-- The timer callback `factDiv.classList.add("show-fact")` for the element `id`. -/
def Node.showFact (id : Nat) : Node → Node
  | .element el => if el.id = id then .element (el.addClass "show-fact") else .element el
  | .text data => .text data

/-- What the event loop of a cat-fact page can run next. -/
inductive FactEvent
  | click                                -- the trigger (button click, call of `getNewFact`)
  | settle (req : Nat) (r : Fetched)     -- request `req` settles
  | timeout (id : Nat)                   -- the timer of element `id` fires

/-- One turn of the event loop. An event for a request that is not in flight or a timer
that is not pending does nothing. -/
def FactScript.step (sc : FactScript) (p : FactPage) : FactEvent → FactPage
  | .click => p.fetch
  | .settle req r =>
    if req ∈ p.pending then
      FactPage.finish (sc.onSettled r { p with pending := p.pending.erase req })
    else p
  | .timeout id =>
    if id ∈ p.timers then
      { p with timers := p.timers.erase id, children := p.children.map (Node.showFact id) }
    else p

/-- The event loop over a sequence of events. -/
def FactScript.run (sc : FactScript) (p : FactPage) (evs : List FactEvent) : FactPage :=
  evs.foldl sc.step p

/-! ## Gender lookup: Lahbabi `gender.js` -/

/-- The comparison `v === s` for a string literal `s`. -/
def JS.Value.strictEqStr : Value → String → Bool
  | .str t, s => t = s
  | _, _ => false

/-- What the event loop of a gender-lookup page can run next. -/
inductive GenderEvent
  | submit (value : String)            -- the trigger, with `value` in the name field
  | settle (req : Nat) (r : Fetched)   -- request `req` settles

namespace LahbabiGender

/-- State of the page `gender.js` runs in. -/
structure Page where
  /-- Value of `#name-input`. -/
  nameInput : String
  /-- Markup source of `#result`: the string last assigned to `resultDiv.innerHTML` (the
  markup of the page itself before any assignment). The nodes the page then holds are
  `Page.resultNodes`. -/
  resultHTML : String
  /-- URLs passed to `fetch`, oldest first; `fetch` is always called with the URL alone,
  which makes a GET request. -/
  requests : List String
  /-- Requests in flight, each with the `name` its reactions closed over. -/
  pending : List (Nat × String)
  /-- Identity of the next request. -/
  nextReq : Nat
  /-- Arguments of `console.error`, oldest first. -/
  console : List Error
  /-- Rejections no handler took, oldest first. -/
  unhandled : List Error
deriving DecidableEq, Repr

/-- The child nodes of `#result`: what the HTML parser builds from the markup source. -/
def Page.resultNodes (p : Page) : Option (List HTML.Tree) :=
  HTML.parseFragment p.resultHTML

/-- The click handler, lines 4-33, up to the point where it returns.
`event.preventDefault()` changes nothing of this state. -/
def onClick (p : Page) : Page :=
  -- const name = nameInput.value.trim();
  let name := trim p.nameInput
  if name ≠ "" then
    -- fetch(`https://api.genderize.io/?name=${name}`)
    { p with
      requests := p.requests ++ ["https://api.genderize.io/?name=" ++ name]
      pending := p.pending ++ [(p.nextReq, name)]
      nextReq := p.nextReq + 1 }
  else
    -- resultDiv.innerHTML = "Please enter a name.";
    { p with resultHTML := "Please enter a name." }

/-- Lines 13-25, the reaction to the parsed body. -/
def onData (name : String) (data : Value) (p : Page) : Except Error Unit × Page :=
  -- const gender = data.gender;
  match data.get "gender" with
  | .error err => (.error err, p)
  | .ok gender =>
    -- const probability = data.probability * 100;
    match data.get "probability" with
    | .error err => (.error err, p)
    | .ok pr =>
      let probability := Number.mul pr.toNumber (Number.ofNat 100)
      let message := "The gender of " ++ name ++ " is "
      let message :=
        if gender.strictEqStr "male" then
          message ++ ("male with " ++ probability.toString ++ "% certainty.")
        else if gender.strictEqStr "female" then
          message ++ ("female with " ++ probability.toString ++ "% certainty.")
        else
          message ++ "unisex or not found."
      -- resultDiv.innerHTML = message;
      (.ok (), { p with resultHTML := message })

/-- Lines 26-29, the rejection handler. -/
def onError (err : Error) (p : Page) : Except Error Unit × Page :=
  (.ok (),
    { p with
      resultHTML := "Error fetching data. Please try again later."
      console := p.console ++ [err] })

/-- The promise chain of lines 11-29, once the request has settled. -/
def onSettled (name : String) (r : Fetched) (p : Page) : Except Error Unit × Page :=
  orCatch (andThen (r.outcome, p) (onData name)) onError

/-- A promise chain has run: a rejection left at its end is reported as unhandled. -/
def finish (pr : Except Error Unit × Page) : Page :=
  match pr with
  | (.ok _, p) => p
  | (.error err, p) => { p with unhandled := p.unhandled ++ [err] }

/-- One turn of the event loop. -/
def step (p : Page) : GenderEvent → Page
  | .submit value => onClick { p with nameInput := value }
  | .settle req r =>
    match p.pending.lookup req with
    | some name =>
      finish (onSettled name r { p with pending := p.pending.filter (fun x => x.1 ≠ req) })
    | none => p

/-- The event loop over a sequence of events. -/
def run (p : Page) (evs : List GenderEvent) : Page :=
  evs.foldl step p

end LahbabiGender

/-! ## Gender lookup: Chejjari `genderize` -/

namespace Chejjari

/-- State of the page `genderize` runs in. -/
structure Page where
  /-- Value of `#name`. -/
  nameInput : String
  /-- Child nodes of `#result`, first child first. -/
  result : List Node
  /-- Identity of the next element to be created. -/
  nextId : Nat
  /-- Messages shown with `alert`, oldest first. -/
  alerts : List String
  /-- URLs passed to `fetch`, oldest first; `fetch` is always called with the URL alone,
  which makes a GET request. -/
  requests : List String
  /-- Requests in flight, each with the `name` its reaction closed over. -/
  pending : List (Nat × String)
  /-- Identity of the next request. -/
  nextReq : Nat
  /-- Rejections no handler took, oldest first. -/
  unhandled : List Error
deriving DecidableEq, Repr

/-- The function `genderize`, lines 14-39, up to the point where it returns. -/
def genderize (p : Page) : Page :=
  -- let name = document.getElementById("name").value;
  let name := p.nameInput
  -- let url = "https://api.genderize.io/?name=".concat(name);
  let url := "https://api.genderize.io/?name=" ++ name
  if name = "" then
    -- alert("Missing data : Please type a name to see the gender"); return;
    { p with alerts := p.alerts ++ ["Missing data : Please type a name to see the gender"] }
  else
    -- fetch(url)
    { p with
      requests := p.requests ++ [url]
      pending := p.pending ++ [(p.nextReq, name)]
      nextReq := p.nextReq + 1 }

/-- Lines 25-37, the reaction of `genderize` to the parsed body. -/
def genderize.onData (name : String) (data : Value) (p : Page) : Except Error Unit × Page :=
  -- let result = `Result : ${name} is ${data.probability * 100 }% ${data.gender}`
  match data.get "probability" with
  | .error err => (.error err, p)
  | .ok pr =>
    match data.get "gender" with
    | .error err => (.error err, p)
    | .ok gender =>
      let result :=
        "Result : " ++ name ++ " is " ++ (Number.mul pr.toNumber (Number.ofNat 100)).toString ++
          "% " ++ gender.toStr
      -- let div = document.getElementById('result'); div.removeChild(div.firstChild);
      match p.result with
      | [] => (.error .typeError, p)   -- `div.firstChild` is `null`: `removeChild` throws
      | _ :: rest =>
        -- const node = document.createElement("p");
        let node := createElement p.nextId "p"
        -- node.appendChild(document.createTextNode(result));
        let node := node.appendText result
        -- div.appendChild(node); document.getElementById('name').value = "";
        (.ok (),
          { p with
            result := rest ++ [.element node]
            nextId := p.nextId + 1
            nameInput := "" })

/-- The promise chain of `genderize`, lines 23-38, once the request has settled: there is
no `.catch`. -/
def genderize.onSettled (name : String) (r : Fetched) (p : Page) : Except Error Unit × Page :=
  andThen (r.outcome, p) (genderize.onData name)

/-- A promise chain has run: a rejection left at its end is reported as unhandled. -/
def finish (pr : Except Error Unit × Page) : Page :=
  match pr with
  | (.ok _, p) => p
  | (.error err, p) => { p with unhandled := p.unhandled ++ [err] }

/-- One turn of the event loop. -/
def step (p : Page) : GenderEvent → Page
  | .submit value => genderize { p with nameInput := value }
  | .settle req r =>
    match p.pending.lookup req with
    | some name =>
      finish (genderize.onSettled name r
        { p with pending := p.pending.filter (fun x => x.1 ≠ req) })
    | none => p

/-- The event loop over a sequence of events. -/
def run (p : Page) (evs : List GenderEvent) : Page :=
  evs.foldl step p

end Chejjari

/-! ## Message list: React `App.js` -/

namespace App

/-- State of the component: the `messages` state variable and the requests of its effect. -/
structure State where
  /-- The `messages` state variable. -/
  messages : Value
  /-- URLs passed to `fetch`, oldest first; `fetch` is always called with the URL alone,
  which makes a GET request. -/
  requests : List String
  /-- Rejections no handler took, oldest first. -/
  unhandled : List Error

/-- The initial state, `useState([])`. -/
def initial : State := { messages := .arr [], requests := [], unhandled := [] }

/-- The effect of lines 7-11 when the component mounts. -/
def effect (s : State) : State :=
  { s with requests := s.requests ++ ["http://localhost:8000/api/messages/"] }

/-- The promise chain of lines 8-10, once the request has settled: there is no `.catch`. -/
def onSettled (r : Fetched) (s : State) : Except Error Unit × State :=
  andThen (r.outcome, s) (fun data s => (.ok (), { s with messages := data }))

/-- A promise chain has run: a rejection left at its end is reported as unhandled. -/
def finish (pr : Except Error Unit × State) : State :=
  match pr with
  | (.ok _, s) => s
  | (.error err, s) => { s with unhandled := s.unhandled ++ [err] }

end App

/-! ## Example pages and payloads -/

/-- A cat-fact page whose container holds two earlier nodes. -/
def factPageTwo : FactPage :=
  { children := [.text "n1", .text "n2"], nextId := 2, timers := [], requests := [],
    pending := [], nextReq := 0, console := [], unhandled := [] }

/-- The payload `{gender: "female", probability: 0.96}`. -/
def aliceData : Value :=
  .obj [("gender", .str "female"), ("probability", .num (Number.ofDecimal 96 (-2)))]

/-- Lahbabi's gender page before any lookup, with some earlier markup in `#result`. -/
def lahbabiIdle : LahbabiGender.Page :=
  { nameInput := "", resultHTML := "<p>earlier</p>", requests := [], pending := [],
    nextReq := 0, console := [], unhandled := [] }

/-- Chejjari's page before any lookup; `#result` holds one placeholder node. -/
def chejjariIdle : Chejjari.Page :=
  { nameInput := "", result := [.text " "], nextId := 0, alerts := [], requests := [],
    pending := [], nextReq := 0, unhandled := [] }

/-- The payload `{gender: "male", probability: 1}`. -/
def maleData : Value :=
  .obj [("gender", .str "male"), ("probability", .num (Number.ofNat 1))]

/-- Chejjari's page with an empty `#result`. -/
def chejjariEmpty : Chejjari.Page :=
  { chejjariIdle with result := [] }

/-! ## Scenario vocabulary for the event loops -/

/-- The value of `v.key` when the read does not throw, `undefined` when it does. -/
def JS.Value.prop (v : Value) (key : String) : Value :=
  match v.get key with
  | .ok x => x
  | .error _ => .undefined

/-- A value whose property reads throw: `null`, and `undefined` (which no JSON text
parses to). -/
def JS.Value.isNullish : Value → Bool
  | .null => true
  | .undefined => true
  | _ => false

/-- Request and parsed body of an event that is a response with a JSON body. -/
def FactEvent.arrival : FactEvent → Option (Nat × Value)
  | .settle req (.json data) => some (req, data)
  | _ => none

/-- Events of the scenario where the responses of earlier triggers arrive: a response whose
body parsed to a value with readable properties, or a timer. -/
def FactEvent.isArrivalOrTimer : FactEvent → Bool
  | .click => false
  | .settle _ (.json data) => !data.isNullish
  | .settle _ _ => false
  | .timeout _ => true

/-- Tag and content of the node a cat-fact script is expected to render for a parsed body:
the string of its `fact`, assigned the way the script assigns it. -/
def FactScript.expectedPayload (sc : FactScript) (data : Value) : String × Content :=
  match sc with
  | .boufous => ("div", .html (data.prop "fact").toLegacyDOMString)
  | .lahbabi => ("div", .rendered (data.prop "fact").toLegacyDOMString)
  | .chejjari => ("li", .nodes [(data.prop "fact").toStr])

/-- Two responses arriving in the reverse order of their triggers, with the timer of the
first rendered element firing in between. -/
def twoArrivals : List FactEvent :=
  [.settle 1 (.json (.obj [("fact", .str "second")])), .timeout 2,
   .settle 0 (.json (.obj [("fact", .str "first")]))]

/-- Events of a sequence of successful lookups: a trigger, or a response whose body
parsed to a value with readable properties. -/
def GenderEvent.isLookupOrArrival : GenderEvent → Bool
  | .submit _ => true
  | .settle _ (.json data) => !data.isNullish
  | .settle _ _ => false

/-- Triggers whose name passes the guard of Lahbabi's `gender.js`. -/
def GenderEvent.isGuardedSubmit : GenderEvent → Bool
  | .submit value => decide (trim value ≠ "")
  | .settle _ _ => false

/-- Triggers. -/
def GenderEvent.isSubmit : GenderEvent → Bool
  | .submit _ => true
  | .settle _ _ => false

/-- The result text claimed for Chejjari's `genderize`: `Result : n is P% g`. -/
def Chejjari.expectedResult (name : String) (data : Value) : String :=
  "Result : " ++ name ++ " is " ++
    (Number.mul (data.prop "probability").toNumber (Number.ofNat 100)).toString ++ "% " ++
    (data.prop "gender").toStr

/-- The message claimed for Lahbabi's `gender.js`. -/
def LahbabiGender.expectedMessage (name : String) (data : Value) : String :=
  if (data.prop "gender").strictEqStr "male" then
    "The gender of " ++ name ++ " is male with " ++
      (Number.mul (data.prop "probability").toNumber (Number.ofNat 100)).toString ++
      "% certainty."
  else if (data.prop "gender").strictEqStr "female" then
    "The gender of " ++ name ++ " is female with " ++
      (Number.mul (data.prop "probability").toNumber (Number.ofNat 100)).toString ++
      "% certainty."
  else
    "The gender of " ++ name ++ " is unisex or not found."

/-- Two lookups whose responses arrive in the reverse order of their triggers. -/
def twoLookups : List GenderEvent :=
  [.submit "alice", .submit "bob", .settle 1 (.json (.obj [("gender", .str "male")]))]

/-- The container after a cat-fact script has added the nodes `added` (given in the order
their responses arrived) to the nodes `old`: Chejjari's `getNewFact` appends, the two other
scripts prepend. -/
def FactScript.arrange (sc : FactScript) (added old : List Node) : List Node :=
  match sc with
  | .chejjari => old ++ added
  | _ => added.reverse ++ old

/-! ## Plain strings through `innerHTML` and `innerText` -/

/-- Inserting characters one after the other extends the text node that is the last
child. -/
theorem emit_foldl_text (cs : List Char) : ∀ (data : String) (rest : List HTML.Tree),
    cs.foldl (fun t c => HTML.emit c t) (.text data :: rest) =
      .text (String.mk (data.data ++ cs)) :: rest := by
  induction cs with
  | nil => intro data rest; simp
  | cons c cs ih =>
    intro data rest
    have h : HTML.emit c (.text data :: rest) = .text (data.push c) :: rest := rfl
    rw [List.foldl_cons, h, ih]
    simp [String.push]

/-- In the data state the parser inserts a run of plain characters as text. -/
theorem html_run_plain (cs : List Char) : ∀ b : HTML.Builder, b.mode = .data →
    cs.all HTML.isPlainChar = true →
    HTML.run b cs =
      some { b with current := cs.foldl (fun t c => HTML.emit c t) b.current } := by
  induction cs with
  | nil =>
    intro b hmode _
    cases b
    simp_all [HTML.run]
  | cons c cs ih =>
    intro b hmode hplain
    simp only [List.all_cons, Bool.and_eq_true] at hplain
    obtain ⟨hc, hcs⟩ := hplain
    simp only [HTML.isPlainChar, Bool.not_eq_true', Bool.or_eq_false_iff,
      decide_eq_false_iff_not] at hc
    obtain ⟨⟨⟨h1, h2⟩, h3⟩, _⟩ := hc
    have hstep : HTML.stepChar b c =
        some { b with mode := .data, current := HTML.emit c b.current } := by
      simp [HTML.stepChar, hmode, HTML.dataChar, h1, h2, h3]
    simp only [HTML.run, hstep, Option.some_bind]
    rw [ih _ rfl hcs]
    simp [hmode]

/-- Newline normalisation leaves a string without CR alone. -/
theorem normalizeNewlines_plain (cs : List Char) (hplain : cs.all HTML.isPlainChar = true) :
    HTML.normalizeNewlines false cs = cs := by
  induction cs with
  | nil => rfl
  | cons c cs ih =>
    simp only [List.all_cons, Bool.and_eq_true] at hplain
    obtain ⟨hc, hcs⟩ := hplain
    simp only [HTML.isPlainChar, Bool.not_eq_true', Bool.or_eq_false_iff,
      decide_eq_false_iff_not] at hc
    simp [HTML.normalizeNewlines, hc.2, ih hcs]

/-- A string without `&`, `<`, U+0000 and CR assigned through `innerHTML` becomes one
text node holding that string (no node when the string is empty). -/
theorem parseFragment_plain (s : String) (hplain : HTML.isPlain s = true) :
    HTML.parseFragment s = some (HTML.textNodes s) := by
  have hdata : s.data.all HTML.isPlainChar = true := hplain
  have hrun := html_run_plain s.data { mode := .data, current := [], stack := [] } rfl hdata
  simp only [HTML.parseFragment, normalizeNewlines_plain _ hdata, hrun, Option.some_bind,
    HTML.finish, HTML.closeAll, HTML.textNodes]
  cases hs : s.data with
  | nil => simp
  | cons c cs =>
    have hstr : s = String.mk (c :: cs) := by
      rw [← hs]
    have hemit : HTML.emit c [] = [.text (String.singleton c)] := rfl
    simp [hemit, emit_foldl_text, String.singleton, hstr]

/-- Without a line break the `innerText` setter collects the whole string in one text
run. -/
theorem renderedAux_noBreak (cs : List Char) : ∀ textRun : List Char,
    (cs.all fun c => !(c.toNat = 10 || c.toNat = 13)) = true →
    HTML.renderedAux false cs textRun [] =
      (HTML.flushRun (cs.reverse ++ textRun) []).reverse := by
  induction cs with
  | nil => intro textRun _; simp [HTML.renderedAux]
  | cons c cs ih =>
    intro textRun hcs
    simp only [List.all_cons, Bool.and_eq_true, Bool.not_eq_true', Bool.or_eq_false_iff,
      decide_eq_false_iff_not] at hcs
    obtain ⟨⟨h10, h13⟩, hrest⟩ := hcs
    simp only [HTML.renderedAux, h13, h10, if_false]
    rw [ih _ hrest]
    simp

/-- A string without a line break assigned through `innerText` becomes one text node
holding that string (no node when the string is empty). -/
theorem renderedTextFragment_noBreak (s : String) (hs : HTML.hasNoLineBreak s = true) :
    HTML.renderedTextFragment s = HTML.textNodes s := by
  have hdata : (s.data.all fun c => !(c.toNat = 10 || c.toNat = 13)) = true := hs
  simp only [HTML.renderedTextFragment, renderedAux_noBreak s.data [] hdata, HTML.flushRun,
    HTML.textNodes, List.append_nil, List.reverse_eq_nil_iff, List.reverse_reverse]
  by_cases h : s.data = [] <;> simp [h]

/-- The text content of the nodes that hold a string is that string. -/
theorem textContent_textNodes (s : String) : HTML.textContent (HTML.textNodes s) = s := by
  by_cases h : s.data = []
  · have hs : s = "" := by
      cases s
      simp_all
    simp [HTML.textNodes, h, HTML.textContent, hs]
  · simp [HTML.textNodes, h, HTML.textContent, HTML.Tree.textContent]

/-- Plain strings are closed under concatenation. -/
theorem isPlain_append (a b : String) :
    HTML.isPlain (a ++ b) = (HTML.isPlain a && HTML.isPlain b) := by
  simp [HTML.isPlain, String.data_append, List.all_append]

/-- Decimal digits are plain characters. -/
theorem isPlainChar_digitChar (k : Nat) (hk : k < 10) :
    HTML.isPlainChar (Nat.digitChar k) = true := by
  interval_cases k <;> decide

/-- The digits of a natural number are plain characters. -/
theorem toDigitsCore_plain (fuel : Nat) : ∀ (n : Nat) (ds : List Char),
    ds.all HTML.isPlainChar = true →
    (Nat.toDigitsCore 10 fuel n ds).all HTML.isPlainChar = true := by
  induction fuel with
  | zero => intro n ds hds; simpa [Nat.toDigitsCore] using hds
  | succ fuel ih =>
    intro n ds hds
    simp only [Nat.toDigitsCore]
    split
    · simp [isPlainChar_digitChar _ (Nat.mod_lt n (by decide : 0 < 10)), hds]
    · exact ih _ _ (by simp [isPlainChar_digitChar _ (Nat.mod_lt n (by decide : 0 < 10)), hds])

/-- The decimal numeral of a natural number is plain. -/
theorem isPlain_repr (n : Nat) : HTML.isPlain n.repr = true := by
  simp only [HTML.isPlain, Nat.repr, Nat.toDigits, List.asString]
  exact toDigitsCore_plain _ _ _ rfl

/-- A run of zeros is plain. -/
theorem isPlain_zeros (n : Nat) : HTML.isPlain (Number.zeros n) = true := by
  simp only [HTML.isPlain, Number.zeros, List.all_eq_true]
  intro c hc
  rw [List.eq_of_mem_replicate hc]
  decide

/-- The leading characters of a plain string are plain. -/
theorem isPlain_take (s : String) (n : Nat) (hs : HTML.isPlain s = true) :
    HTML.isPlain (String.mk (s.data.take n)) = true := by
  simp only [HTML.isPlain, List.all_eq_true] at hs ⊢
  exact fun c hc => hs c (List.mem_of_mem_take hc)

/-- The trailing characters of a plain string are plain. -/
theorem isPlain_drop (s : String) (n : Nat) (hs : HTML.isPlain s = true) :
    HTML.isPlain (String.mk (s.data.drop n)) = true := by
  simp only [HTML.isPlain, List.all_eq_true] at hs ⊢
  exact fun c hc => hs c (List.mem_of_mem_drop hc)

/-- A plain string without its first character is plain. -/
theorem isPlain_tail (s : String) (hs : HTML.isPlain s = true) :
    HTML.isPlain (String.mk s.data.tail) = true := by
  simp only [HTML.isPlain, List.all_eq_true] at hs ⊢
  exact fun c hc => hs c (List.mem_of_mem_tail hc)

/-- The string of a positive Number is plain: digits, `.`, `e`, `+` and `-` only. -/
theorem isPlain_positiveToString (m : Nat) (e : Int) :
    HTML.isPlain (Number.positiveToString m e) = true := by
  have h1 : HTML.isPlain "." = true := by decide
  have h2 : HTML.isPlain "0." = true := by decide
  have h3 : HTML.isPlain "e" = true := by decide
  have h4 : HTML.isPlain "-" = true := by decide
  have h5 : HTML.isPlain "+" = true := by decide
  unfold Number.positiveToString
  dsimp only
  split_ifs <;>
    simp [isPlain_append, isPlain_repr, isPlain_zeros, isPlain_take, isPlain_drop, isPlain_tail,
      h1, h2, h3, h4, h5]

/-- The string of a Number is plain. -/
theorem isPlain_toString (x : Number) : HTML.isPlain x.toString = true := by
  cases x with
  | nan => decide
  | inf neg => cases neg <;> decide
  | fin neg m e =>
    have h4 : HTML.isPlain "-" = true := by decide
    have h0 : HTML.isPlain "" = true := by decide
    simp only [Number.toString]
    split_ifs
    · decide
    · rw [isPlain_append, h4, isPlain_positiveToString]
      rfl
    · rw [isPlain_append, h0, isPlain_positiveToString]
      rfl

/-- The fixed strings the scripts show hold no markup and no line break: assigned through
`innerHTML` or `innerText` each becomes one text node with the same text. -/
theorem fixed_strings_are_text :
    HTML.parseFragment "Please enter a name." = some [.text "Please enter a name."] ∧
    HTML.parseFragment "Error fetching data. Please try again later." =
      some [.text "Error fetching data. Please try again later."] ∧
    HTML.parseFragment "undefined" = some [.text "undefined"] ∧
    HTML.renderedTextFragment "undefined" = [.text "undefined"] := by
  refine ⟨?_, ?_, ?_, ?_⟩
  · rw [parseFragment_plain _ (by decide)]
    rfl
  · rw [parseFragment_plain _ (by decide)]
    rfl
  · rw [parseFragment_plain _ (by decide)]
    rfl
  · rw [renderedTextFragment_noBreak _ (by decide)]
    rfl

/-! ## Cat-fact feed: one trigger, one response -/

/-- One trigger followed by its response: the request is in flight when it settles, so the
promise chain runs on the page as the click left it. -/
theorem fact_run_click_settle (sc : FactScript) (p : FactPage) (r : Fetched) :
    sc.run p [.click, .settle p.nextReq r] =
      FactPage.finish (sc.onSettled r { p.fetch with pending := p.fetch.pending.erase p.nextReq }) := by
  simp [FactScript.run, FactScript.step, FactPage.fetch]

/-- C1, as stated, fails in the position of the node and in its text. Chejjari's
`getNewFact` puts the node for `{fact: "x"}` last in `[n1, n2]`, not first. Boufous assigns
the fact through `innerHTML`, so the HTML parser reads it: the node for
`Tom & <b>Jerry</b>` has the text `Tom & Jerry`, the one for `a &amp; b` the text `a & b`,
a CR in the fact becomes LF and U+0000 is dropped. Lahbabi assigns it through `innerText`,
where each line break becomes a `br` element and is missing from the text. -/
theorem C1_position_and_text_fail :
    (FactScript.run .chejjari factPageTwo
        [.click, .settle 0 (.json (.obj [("fact", .str "x")]))]).children =
      [.text "n1", .text "n2",
        .element { id := 2, tag := "li", classList := [], content := .nodes ["x"] }] ∧
    (¬ ∃ el : Element,
      (FactScript.run .chejjari factPageTwo
        [.click, .settle 0 (.json (.obj [("fact", .str "x")]))]).children =
        [.element el, .text "n1", .text "n2"]) ∧
    ((FactScript.run .boufous factPageTwo
        [.click, .settle 0 (.json (.obj [("fact", .str "Tom & <b>Jerry</b>")]))]).children.head?.bind
      Node.textContent) = some "Tom & Jerry" ∧
    ((FactScript.run .boufous factPageTwo
        [.click, .settle 0 (.json (.obj [("fact", .str "a &amp; b")]))]).children.head?.bind
      Node.textContent) = some "a & b" ∧
    ((FactScript.run .boufous factPageTwo
        [.click, .settle 0 (.json (.obj [("fact", .str "a\rb")]))]).children.head?.bind
      Node.textContent) = some "a\nb" ∧
    ((FactScript.run .boufous factPageTwo
        [.click, .settle 0 (.json (.obj [("fact", .str "a\x00b")]))]).children.head?.bind
      Node.textContent) = some "ab" ∧
    ((FactScript.run .lahbabi factPageTwo
        [.click, .settle 0 (.json (.obj [("fact", .str "one\ntwo")]))]).children.head?.bind
      Node.textContent) = some "onetwo" ∧
    ((FactScript.run .lahbabi factPageTwo
        [.click, .settle 0 (.json (.obj [("fact", .str "one\r\ntwo")]))]).children.head?.bind
      Node.textContent) = some "onetwo" := by
  have h : (FactScript.run .chejjari factPageTwo
        [.click, .settle 0 (.json (.obj [("fact", .str "x")]))]).children =
      [.text "n1", .text "n2",
        .element { id := 2, tag := "li", classList := [], content := .nodes ["x"] }] := by
    decide
  refine ⟨h, ?_, by decide, by decide, by decide, by decide, by decide, by decide⟩
  rintro ⟨el, hel⟩
  rw [h] at hel
  simp at hel

/-- C1, amended: a successful response whose `fact` is the string `f` adds exactly one
node. Boufous and Lahbabi put it before all earlier children of the container, Chejjari's
`getNewFact` after them. The text of the node is `f` in Chejjari's script always, in
Boufous's script (`innerHTML`) when `f` has no `&`, `<`, U+0000 or CR, and in Lahbabi's
script (`innerText`) when `f` has no line break. -/
theorem C1_fact_node_added (p : FactPage) (data : Value) (f : String)
    (hfact : data.get "fact" = .ok (.str f)) :
    ((FactScript.run .boufous p [.click, .settle p.nextReq (.json data)]).children =
      .element { id := p.nextId, tag := "div", classList := ["fact"], content := .html f }
        :: p.children ∧
     (HTML.isPlain f = true →
      Element.textContent
        { id := p.nextId, tag := "div", classList := ["fact"], content := .html f } =
          some f)) ∧
    ((FactScript.run .lahbabi p [.click, .settle p.nextReq (.json data)]).children =
      .element { id := p.nextId, tag := "div", classList := ["fact"], content := .rendered f }
        :: p.children ∧
     (HTML.hasNoLineBreak f = true →
      Element.textContent
        { id := p.nextId, tag := "div", classList := ["fact"], content := .rendered f } =
          some f)) ∧
    ((FactScript.run .chejjari p [.click, .settle p.nextReq (.json data)]).children =
      p.children ++
        [.element { id := p.nextId, tag := "li", classList := [], content := .nodes [f] }] ∧
     Element.textContent
        { id := p.nextId, tag := "li", classList := [], content := .nodes [f] } = some f) := by
  refine ⟨⟨?_, ?_⟩, ⟨?_, ?_⟩, ⟨?_, ?_⟩⟩
  · simp [fact_run_click_settle, FactScript.onSettled, Boufous.onSettled, Boufous.onData,
      Fetched.outcome, andThen, orCatch, hfact, FactPage.finish, FactPage.fetch, createElement,
      Element.addClass, Value.toLegacyDOMString, Value.toStr]
  · intro hplain
    simp [Element.textContent, Content.childNodes, parseFragment_plain f hplain,
      textContent_textNodes]
  · simp [fact_run_click_settle, FactScript.onSettled, LahbabiCat.onSettled,
      LahbabiCat.onData, Fetched.outcome, andThen, orCatch, hfact, FactPage.finish,
      FactPage.fetch, createElement, Element.addClass, Value.toLegacyDOMString, Value.toStr]
  · intro hline
    simp [Element.textContent, Content.childNodes, renderedTextFragment_noBreak f hline,
      textContent_textNodes]
  · simp [fact_run_click_settle, FactScript.onSettled, Chejjari.getNewFact.onSettled,
      Chejjari.getNewFact.onData, Fetched.outcome, andThen, hfact, FactPage.finish,
      FactPage.fetch, createElement, Element.appendText, Value.toStr]
  · simp [Element.textContent, Content.childNodes, HTML.textContent, HTML.Tree.textContent]

/-- C1, amended, on the container `[n1, n2]` with the response `{fact: "x"}`. -/
theorem C1_fact_node_added_witness :
    (Value.obj [("fact", .str "x")]).get "fact" = .ok (.str "x") ∧
    (FactScript.run .boufous factPageTwo
        [.click, .settle 0 (.json (.obj [("fact", .str "x")]))]).children =
      [.element { id := 2, tag := "div", classList := ["fact"], content := .html "x" },
        .text "n1", .text "n2"] ∧
    HTML.isPlain "x" = true ∧
    Element.textContent
      { id := 2, tag := "div", classList := ["fact"], content := .html "x" } = some "x" :=
  ⟨rfl, (C1_fact_node_added factPageTwo (.obj [("fact", .str "x")]) "x" rfl).1.1, by decide,
    (C1_fact_node_added factPageTwo (.obj [("fact", .str "x")]) "x" rfl).1.2 (by decide)⟩

/-- C6: a parsed object without a `fact` entry still renders one node, with the text
`undefined`, in each of the three scripts, and nothing is thrown: the console and the
unhandled rejections stay as they were. -/
theorem C6_missing_fact_renders_undefined (p : FactPage) (props : List (String × Value))
    (hmissing : ∀ x ∈ props, x.1 ≠ "fact") :
    (FactScript.run .boufous p [.click, .settle p.nextReq (.json (.obj props))]).children =
      .element { id := p.nextId, tag := "div", classList := ["fact"],
                 content := .html "undefined" } :: p.children ∧
    (FactScript.run .lahbabi p [.click, .settle p.nextReq (.json (.obj props))]).children =
      .element { id := p.nextId, tag := "div", classList := ["fact"],
                 content := .rendered "undefined" } :: p.children ∧
    (FactScript.run .chejjari p [.click, .settle p.nextReq (.json (.obj props))]).children =
      p.children ++
        [.element { id := p.nextId, tag := "li", classList := [],
                    content := .nodes ["undefined"] }] ∧
    ∀ sc : FactScript,
      (sc.run p [.click, .settle p.nextReq (.json (.obj props))]).console = p.console ∧
      (sc.run p [.click, .settle p.nextReq (.json (.obj props))]).unhandled = p.unhandled := by
  have hget : (Value.obj props).get "fact" = .ok .undefined := by
    have hnone : props.reverse.lookup "fact" = none := by
      rw [List.lookup_eq_none_iff]
      intro x hx
      exact bne_iff_ne.mpr (Ne.symm (hmissing x (List.mem_reverse.mp hx)))
    simp [Value.get, hnone]
  refine ⟨?_, ?_, ?_, ?_⟩
  · simp [fact_run_click_settle, FactScript.onSettled, Boufous.onSettled, Boufous.onData,
      Fetched.outcome, andThen, orCatch, hget, FactPage.finish, FactPage.fetch, createElement,
      Element.addClass, Value.toLegacyDOMString, Value.toStr]
  · simp [fact_run_click_settle, FactScript.onSettled, LahbabiCat.onSettled,
      LahbabiCat.onData, Fetched.outcome, andThen, orCatch, hget, FactPage.finish,
      FactPage.fetch, createElement, Element.addClass, Value.toLegacyDOMString, Value.toStr]
  · simp [fact_run_click_settle, FactScript.onSettled, Chejjari.getNewFact.onSettled,
      Chejjari.getNewFact.onData, Fetched.outcome, andThen, hget, FactPage.finish,
      FactPage.fetch, createElement, Element.appendText, Value.toStr]
  · intro sc
    cases sc <;>
    simp [fact_run_click_settle, FactScript.onSettled, Boufous.onSettled, Boufous.onData,
      LahbabiCat.onSettled, LahbabiCat.onData, Chejjari.getNewFact.onSettled,
      Chejjari.getNewFact.onData, Fetched.outcome, andThen, orCatch, hget, FactPage.finish,
      FactPage.fetch]

/-- C6 on the container `[n1, n2]` with the payload `{}`. -/
theorem C6_missing_fact_renders_undefined_witness :
    (∀ x ∈ ([] : List (String × Value)), x.1 ≠ "fact") ∧
    (FactScript.run .boufous factPageTwo [.click, .settle 0 (.json (.obj []))]).children =
      [.element { id := 2, tag := "div", classList := ["fact"], content := .html "undefined" },
        .text "n1", .text "n2"] :=
  ⟨by simp, (C6_missing_fact_renders_undefined factPageTwo [] (by simp)).1⟩

/-! ## Gender lookup: one trigger, one response -/

/-- The entry a trigger adds is the one a lookup of its request finds, when no older
request in flight has that identity. -/
theorem lookup_append_fresh {α : Type} (l : List (Nat × α)) (k : Nat) (a : α)
    (hfresh : ∀ x ∈ l, x.1 ≠ k) : (l ++ [(k, a)]).lookup k = some a := by
  have hnone : l.lookup k = none := by
    rw [List.lookup_eq_none_iff]
    intro x hx
    exact bne_iff_ne.mpr (Ne.symm (hfresh x hx))
  simp [List.lookup_append, hnone]

/-- Removing the request a trigger added leaves the older requests in flight. -/
theorem filter_append_fresh {α : Type} (l : List (Nat × α)) (k : Nat) (a : α)
    (hfresh : ∀ x ∈ l, x.1 ≠ k) :
    (l ++ [(k, a)]).filter (fun x => decide (x.1 ≠ k)) = l := by
  rw [List.filter_append, List.filter_eq_self.mpr]
  · simp
  · intro x hx
    simpa using hfresh x hx

/-- Nothing is removed from the requests in flight when none has the identity `k`. -/
theorem filter_fresh {α : Type} (l : List (Nat × α)) (k : Nat) (hfresh : ∀ x ∈ l, x.1 ≠ k) :
    l.filter (fun x => !decide (x.1 = k)) = l := by
  rw [List.filter_eq_self]
  intro x hx
  simpa using hfresh x hx

/-- Lahbabi's `gender.js`: a trigger with a non-blank name followed by its response runs
the promise chain with the trimmed name on the page as the click left it. -/
theorem lahbabi_run_submit_settle (p : LahbabiGender.Page) (v : String) (r : Fetched)
    (hfresh : ∀ x ∈ p.pending, x.1 ≠ p.nextReq) (hname : trim v ≠ "") :
    LahbabiGender.run p [.submit v, .settle p.nextReq r] =
      LahbabiGender.finish (LahbabiGender.onSettled (trim v) r
        { p with
          nameInput := v
          requests := p.requests ++ ["https://api.genderize.io/?name=" ++ trim v]
          nextReq := p.nextReq + 1 }) := by
  simp [LahbabiGender.run, LahbabiGender.step, LahbabiGender.onClick, hname,
    lookup_append_fresh _ _ _ hfresh, filter_fresh _ _ hfresh]

/-- Chejjari's `genderize`: a trigger with a non-empty name followed by its response runs
the promise chain with that name on the page as the call left it. -/
theorem chejjari_run_submit_settle (p : Chejjari.Page) (v : String) (r : Fetched)
    (hfresh : ∀ x ∈ p.pending, x.1 ≠ p.nextReq) (hname : v ≠ "") :
    Chejjari.run p [.submit v, .settle p.nextReq r] =
      Chejjari.finish (Chejjari.genderize.onSettled v r
        { p with
          nameInput := v
          requests := p.requests ++ ["https://api.genderize.io/?name=" ++ v]
          nextReq := p.nextReq + 1 }) := by
  simp [Chejjari.run, Chejjari.step, Chejjari.genderize, hname,
    lookup_append_fresh _ _ _ hfresh, filter_fresh _ _ hfresh]

/-- The message of `gender.js` for a known gender is plain text when the name is. -/
theorem isPlain_gender_message (n middle : String) (x : Number)
    (hn : HTML.isPlain n = true) (hmiddle : HTML.isPlain middle = true) :
    HTML.isPlain ("The gender of " ++ n ++ middle ++ x.toString ++ "% certainty.") = true := by
  have h1 : HTML.isPlain "The gender of " = true := by decide
  have h2 : HTML.isPlain "% certainty." = true := by decide
  simp [isPlain_append, h1, h2, hn, hmiddle, isPlain_toString]

/-- A plain string that is not empty, assigned through `innerHTML`, becomes exactly one
text node. -/
theorem parseFragment_plain_cons (s : String) (hplain : HTML.isPlain s = true)
    (hne : s.data ≠ []) : HTML.parseFragment s = some [.text s] := by
  rw [parseFragment_plain s hplain]
  simp [HTML.textNodes, hne]

/-- The product `1 * 100` prints as `100`. -/
theorem oneHundred :
    (Number.mul (Number.ofNat 1) (Number.ofNat 100)).toString = "100" := by
  set_option maxRecDepth 8000 in decide

/-- C2, as stated, fails for a name with markup: the message is assigned through
`innerHTML`, so for the name `a<i>c` the container gets the text `The gender of a` and an
`i` element, its text lacks the tag and its markup reads back with a closing tag; for
`a &amp; b` the reference is decoded, a CR in the name becomes LF and U+0000 is
dropped. -/
theorem C2_markup_in_name :
    trim "a<i>c" ≠ "" ∧
    (LahbabiGender.run lahbabiIdle [.submit "a<i>c", .settle 0 (.json maleData)]).resultHTML =
      "The gender of a<i>c is male with 100% certainty." ∧
    (LahbabiGender.run lahbabiIdle
        [.submit "a<i>c", .settle 0 (.json maleData)]).resultNodes.map HTML.textContent =
      some "The gender of ac is male with 100% certainty." ∧
    (LahbabiGender.run lahbabiIdle
        [.submit "a<i>c", .settle 0 (.json maleData)]).resultNodes.map HTML.serialize =
      some "The gender of a<i>c is male with 100% certainty.</i>" ∧
    (LahbabiGender.run lahbabiIdle
        [.submit "a<i>c", .settle 0 (.json maleData)]).resultNodes.map HTML.textContent ≠
      some "The gender of a<i>c is male with 100% certainty." ∧
    (LahbabiGender.run lahbabiIdle
        [.submit "a &amp; b", .settle 0 (.json maleData)]).resultNodes.map HTML.textContent =
      some "The gender of a & b is male with 100% certainty." ∧
    (LahbabiGender.run lahbabiIdle
        [.submit "a\rb", .settle 0 (.json maleData)]).resultNodes.map HTML.textContent =
      some "The gender of a\nb is male with 100% certainty." ∧
    (LahbabiGender.run lahbabiIdle
        [.submit "a\x00b", .settle 0 (.json maleData)]).resultNodes.map HTML.textContent =
      some "The gender of ab is male with 100% certainty." := by
  have hmsg : ∀ v : String, trim v ≠ "" →
      (LahbabiGender.run lahbabiIdle [.submit v, .settle 0 (.json maleData)]).resultHTML =
        "The gender of " ++ trim v ++ " is male with 100% certainty." := by
    intro v hv
    have hrun := lahbabi_run_submit_settle lahbabiIdle v (.json maleData)
      (by simp [lahbabiIdle]) hv
    rw [show lahbabiIdle.nextReq = 0 from rfl] at hrun
    have hget1 : maleData.get "gender" = .ok (.str "male") := rfl
    have hget2 : maleData.get "probability" = .ok (.num (Number.ofNat 1)) := rfl
    have hsuffix : (" is male with 100% certainty." : String) =
        " is " ++ ("male with " ++ ("100" ++ "% certainty.")) := by decide
    rw [hrun, hsuffix]
    simp [LahbabiGender.onSettled, LahbabiGender.onData, LahbabiGender.finish,
      Fetched.outcome, andThen, orCatch, hget1, hget2, Value.strictEqStr, Value.toNumber,
      oneHundred, String.append_assoc]
  have h1 := hmsg "a<i>c" (by decide)
  have h2 := hmsg "a &amp; b" (by decide)
  have h3 := hmsg "a\rb" (by decide)
  have h4 := hmsg "a\x00b" (by decide)
  simp only [LahbabiGender.Page.resultNodes, h1, h2, h3, h4]
  refine ⟨by decide, by decide, by decide, by decide, by decide, by decide, by decide,
    by decide⟩

/-- C2, amended: in Lahbabi's `gender.js`, for a name whose trimmed value `n` is not empty
and has no `&`, `<`, U+0000 or CR, and a parsed body with `gender = g` and
`probability = pr`, the content of `#result` becomes exactly one text node:
`The gender of n is male with P% certainty.` when `g` is the string `male`, the same with
`female` when `g` is the string `female`, and `The gender of n is unisex or not found.`
for every other `g` (`null` and a missing entry included); `P` is the string of
`pr * 100`. -/
theorem C2_gender_message (p : LahbabiGender.Page) (v : String) (data g pr : Value)
    (hfresh : ∀ x ∈ p.pending, x.1 ≠ p.nextReq) (hname : trim v ≠ "")
    (hplain : HTML.isPlain (trim v) = true)
    (hg : data.get "gender" = .ok g) (hpr : data.get "probability" = .ok pr) :
    (g = .str "male" →
      (LahbabiGender.run p [.submit v, .settle p.nextReq (.json data)]).resultNodes =
        some [.text ("The gender of " ++ trim v ++ " is male with " ++
          (Number.mul pr.toNumber (Number.ofNat 100)).toString ++ "% certainty.")]) ∧
    (g = .str "female" →
      (LahbabiGender.run p [.submit v, .settle p.nextReq (.json data)]).resultNodes =
        some [.text ("The gender of " ++ trim v ++ " is female with " ++
          (Number.mul pr.toNumber (Number.ofNat 100)).toString ++ "% certainty.")]) ∧
    (g ≠ .str "male" → g ≠ .str "female" →
      (LahbabiGender.run p [.submit v, .settle p.nextReq (.json data)]).resultNodes =
        some [.text ("The gender of " ++ trim v ++ " is unisex or not found.")]) := by
  rw [lahbabi_run_submit_settle p v _ hfresh hname]
  have hmale : (" is male with " : String) = " is " ++ "male with " := by decide
  have hfemale : (" is female with " : String) = " is " ++ "female with " := by decide
  have hm : HTML.isPlain " is male with " = true := by decide
  have hf : HTML.isPlain " is female with " = true := by decide
  refine ⟨?_, ?_, ?_⟩
  · intro hgm
    subst hgm
    have hres : (LahbabiGender.finish (LahbabiGender.onSettled (trim v) (.json data)
        { p with
          nameInput := v
          requests := p.requests ++ ["https://api.genderize.io/?name=" ++ trim v]
          nextReq := p.nextReq + 1 })).resultHTML =
        "The gender of " ++ trim v ++ " is male with " ++
          (Number.mul pr.toNumber (Number.ofNat 100)).toString ++ "% certainty." := by
      simp [LahbabiGender.onSettled, LahbabiGender.onData, LahbabiGender.finish,
        Fetched.outcome, andThen, orCatch, hg, hpr, Value.strictEqStr, String.append_assoc]
      rw [hmale, String.append_assoc]
    rw [LahbabiGender.Page.resultNodes, hres]
    apply parseFragment_plain_cons _ (isPlain_gender_message _ _ _ hplain hm)
    simp [String.append_assoc]
  · intro hgf
    subst hgf
    have hres : (LahbabiGender.finish (LahbabiGender.onSettled (trim v) (.json data)
        { p with
          nameInput := v
          requests := p.requests ++ ["https://api.genderize.io/?name=" ++ trim v]
          nextReq := p.nextReq + 1 })).resultHTML =
        "The gender of " ++ trim v ++ " is female with " ++
          (Number.mul pr.toNumber (Number.ofNat 100)).toString ++ "% certainty." := by
      simp [LahbabiGender.onSettled, LahbabiGender.onData, LahbabiGender.finish,
        Fetched.outcome, andThen, orCatch, hg, hpr, Value.strictEqStr, String.append_assoc]
      rw [hfemale, String.append_assoc]
    rw [LahbabiGender.Page.resultNodes, hres]
    apply parseFragment_plain_cons _ (isPlain_gender_message _ _ _ hplain hf)
    simp [String.append_assoc]
  · intro hgm hgf
    have h1 : g.strictEqStr "male" = false := by
      cases g <;> simp_all [Value.strictEqStr]
    have h2 : g.strictEqStr "female" = false := by
      cases g <;> simp_all [Value.strictEqStr]
    have hres : (LahbabiGender.finish (LahbabiGender.onSettled (trim v) (.json data)
        { p with
          nameInput := v
          requests := p.requests ++ ["https://api.genderize.io/?name=" ++ trim v]
          nextReq := p.nextReq + 1 })).resultHTML =
        "The gender of " ++ trim v ++ " is unisex or not found." := by
      simp [LahbabiGender.onSettled, LahbabiGender.onData, LahbabiGender.finish,
        Fetched.outcome, andThen, orCatch, hg, hpr, h1, h2, String.append_assoc]
    rw [LahbabiGender.Page.resultNodes, hres]
    have hp1 : HTML.isPlain "The gender of " = true := by decide
    have hp2 : HTML.isPlain " is unisex or not found." = true := by decide
    apply parseFragment_plain_cons _ (by simp [isPlain_append, hp1, hp2, hplain])
    simp [String.append_assoc]

/-- The product `0.96 * 100` prints as `96`. -/
theorem ninetySix :
    (Number.mul (Number.ofDecimal 96 (-2)) (Number.ofNat 100)).toString = "96" := by
  set_option maxRecDepth 8000 in decide

/-- C2, amended, on the input `alice` with the payload
`{gender: "female", probability: 0.96}`. -/
theorem C2_gender_message_witness :
    (∀ x ∈ lahbabiIdle.pending, x.1 ≠ lahbabiIdle.nextReq) ∧ trim "alice" ≠ "" ∧
    HTML.isPlain (trim "alice") = true ∧
    (LahbabiGender.run lahbabiIdle [.submit "alice", .settle 0 (.json aliceData)]).resultNodes =
      some [.text "The gender of alice is female with 96% certainty."] := by
  have h := (C2_gender_message lahbabiIdle "alice" aliceData (.str "female")
    (.num (Number.ofDecimal 96 (-2))) (by simp [lahbabiIdle]) (by decide) (by decide)
    rfl rfl).2.1 rfl
  refine ⟨by simp [lahbabiIdle], by decide, by decide, ?_⟩
  have ht : trim "alice" = "alice" := by decide
  rw [show lahbabiIdle.nextReq = 0 from rfl] at h
  rw [h, Value.toNumber, ninetySix, ht]
  rfl

/-- C3, as stated, fails for Chejjari's `genderize` on whitespace-only input: with three
spaces in the name field the guard `name == ""` does not hold, a request is issued and
no message is shown. -/
theorem C3_genderize_blank_name_fetches :
    (Chejjari.run chejjariIdle [.submit "   "]).requests =
      ["https://api.genderize.io/?name=   "] ∧
    (Chejjari.run chejjariIdle [.submit "   "]).alerts = [] ∧
    (Chejjari.run chejjariIdle [.submit "   "]).requests ≠ chejjariIdle.requests := by
  decide

/-- C3, amended: Lahbabi's `gender.js` issues no request and writes
`Please enter a name.` into `#result` whenever the trimmed name is empty (the empty
string and whitespace-only input alike); Chejjari's `genderize` issues no request and
alerts `Missing data : Please type a name to see the gender` when the name is exactly the
empty string, and issues a request for every other name, whitespace-only ones included. -/
theorem C3_empty_name_guard :
    (∀ (p : LahbabiGender.Page) (v : String), trim v = "" →
      (LahbabiGender.run p [.submit v]).requests = p.requests ∧
      (LahbabiGender.run p [.submit v]).pending = p.pending ∧
      (LahbabiGender.run p [.submit v]).resultHTML = "Please enter a name.") ∧
    trim "" = "" ∧ trim "   " = "" ∧
    (∀ p : Chejjari.Page,
      (Chejjari.run p [.submit ""]).requests = p.requests ∧
      (Chejjari.run p [.submit ""]).pending = p.pending ∧
      (Chejjari.run p [.submit ""]).alerts =
        p.alerts ++ ["Missing data : Please type a name to see the gender"]) ∧
    (∀ (p : Chejjari.Page) (v : String), v ≠ "" →
      (Chejjari.run p [.submit v]).requests =
        p.requests ++ ["https://api.genderize.io/?name=" ++ v] ∧
      (Chejjari.run p [.submit v]).alerts = p.alerts) := by
  refine ⟨?_, by decide, by decide, ?_, ?_⟩
  · intro p v hv
    simp [LahbabiGender.run, LahbabiGender.step, LahbabiGender.onClick, hv]
  · intro p
    simp [Chejjari.run, Chejjari.step, Chejjari.genderize]
  · intro p v hv
    simp [Chejjari.run, Chejjari.step, Chejjari.genderize, hv]

/-- C4: in Lahbabi's `gender.js`, for a name that is not blank, when the request fails
(`fetch` rejects, or the body is not JSON) the markup of `#result` is replaced by
`Error fetching data. Please try again later.` whatever it was, the error goes to the
console, and no rejection is left unhandled. -/
theorem C4_gender_fetch_failure (p : LahbabiGender.Page) (v : String) (r : Fetched)
    (hfresh : ∀ x ∈ p.pending, x.1 ≠ p.nextReq) (hname : trim v ≠ "")
    (hfail : r = .failed ∨ r = .malformed) :
    (LahbabiGender.run p [.submit v, .settle p.nextReq r]).resultHTML =
      "Error fetching data. Please try again later." ∧
    (LahbabiGender.run p [.submit v, .settle p.nextReq r]).unhandled = p.unhandled ∧
    (r = .failed →
      (LahbabiGender.run p [.submit v, .settle p.nextReq r]).console =
        p.console ++ [Error.network]) ∧
    (r = .malformed →
      (LahbabiGender.run p [.submit v, .settle p.nextReq r]).console =
        p.console ++ [Error.badJSON]) := by
  rw [lahbabi_run_submit_settle p v _ hfresh hname]
  rcases hfail with h | h <;> subst h <;>
    simp [LahbabiGender.onSettled, LahbabiGender.onError, LahbabiGender.finish,
      Fetched.outcome, andThen, orCatch]

/-- C4 on the input `alice` with a network failure. -/
theorem C4_gender_fetch_failure_witness :
    (∀ x ∈ lahbabiIdle.pending, x.1 ≠ lahbabiIdle.nextReq) ∧ trim "alice" ≠ "" ∧
    (LahbabiGender.run lahbabiIdle [.submit "alice", .settle 0 .failed]).resultHTML =
      "Error fetching data. Please try again later." :=
  ⟨by simp [lahbabiIdle], by decide,
    (C4_gender_fetch_failure lahbabiIdle "alice" .failed (by simp [lahbabiIdle]) (by decide)
      (Or.inl rfl)).1⟩

/-- C3, amended, on whitespace-only input in Lahbabi's `gender.js`. -/
theorem C3_empty_name_guard_witness :
    trim "   " = "" ∧
    (LahbabiGender.run lahbabiIdle [.submit "   "]).requests = [] ∧
    (LahbabiGender.run lahbabiIdle [.submit "   "]).resultHTML = "Please enter a name." :=
  ⟨by decide, (C3_empty_name_guard.1 lahbabiIdle "   " (by decide)).1,
    (C3_empty_name_guard.1 lahbabiIdle "   " (by decide)).2.2⟩

/-- C10: a gender-lookup trigger whose name passes the guard issues exactly one request,
to `https://api.genderize.io/?name=` followed by the name unchanged (the trimmed value in
Lahbabi's `gender.js`, the raw value in Chejjari's `genderize`), and handling the response,
whatever it is, issues no further request. -/
theorem C10_gender_request_url :
    (∀ (p : LahbabiGender.Page) (v : String), trim v ≠ "" →
      (LahbabiGender.run p [.submit v]).requests =
        p.requests ++ ["https://api.genderize.io/?name=" ++ trim v] ∧
      ∀ r : Fetched, (∀ x ∈ p.pending, x.1 ≠ p.nextReq) →
        (LahbabiGender.run p [.submit v, .settle p.nextReq r]).requests =
          p.requests ++ ["https://api.genderize.io/?name=" ++ trim v]) ∧
    (∀ (p : Chejjari.Page) (v : String), v ≠ "" →
      (Chejjari.run p [.submit v]).requests =
        p.requests ++ ["https://api.genderize.io/?name=" ++ v] ∧
      ∀ r : Fetched, (∀ x ∈ p.pending, x.1 ≠ p.nextReq) →
        (Chejjari.run p [.submit v, .settle p.nextReq r]).requests =
          p.requests ++ ["https://api.genderize.io/?name=" ++ v]) := by
  refine ⟨?_, ?_⟩
  · intro p v hv
    refine ⟨by simp [LahbabiGender.run, LahbabiGender.step, LahbabiGender.onClick, hv], ?_⟩
    intro r hfresh
    rw [lahbabi_run_submit_settle p v _ hfresh hv]
    rcases r with _ | _ | data
    · simp [LahbabiGender.onSettled, LahbabiGender.onError, LahbabiGender.finish,
        Fetched.outcome, andThen, orCatch]
    · simp [LahbabiGender.onSettled, LahbabiGender.onError, LahbabiGender.finish,
        Fetched.outcome, andThen, orCatch]
    · simp only [LahbabiGender.onSettled, LahbabiGender.onData, Fetched.outcome, andThen]
      cases data.get "gender" <;> cases data.get "probability" <;>
        simp [LahbabiGender.onError, LahbabiGender.finish, orCatch]
  · intro p v hv
    refine ⟨by simp [Chejjari.run, Chejjari.step, Chejjari.genderize, hv], ?_⟩
    intro r hfresh
    rw [chejjari_run_submit_settle p v _ hfresh hv]
    rcases r with _ | _ | data
    · simp [Chejjari.genderize.onSettled, Chejjari.finish, Fetched.outcome, andThen]
    · simp [Chejjari.genderize.onSettled, Chejjari.finish, Fetched.outcome, andThen]
    · simp only [Chejjari.genderize.onSettled, Chejjari.genderize.onData, Fetched.outcome,
        andThen]
      cases data.get "gender" <;> cases data.get "probability" <;> cases p.result <;>
        simp [Chejjari.finish]

/-- C10 on the input `alice`. -/
theorem C10_gender_request_url_witness :
    trim "alice" ≠ "" ∧ "alice" ≠ "" ∧
    (LahbabiGender.run lahbabiIdle [.submit "alice"]).requests =
      ["https://api.genderize.io/?name=alice"] ∧
    (Chejjari.run chejjariIdle [.submit "alice"]).requests =
      ["https://api.genderize.io/?name=alice"] :=
  ⟨by decide, by decide, (C10_gender_request_url.1 lahbabiIdle "alice" (by decide)).1,
    (C10_gender_request_url.2 chejjariIdle "alice" (by decide)).1⟩

/-- Outside the replace-in-place setting, on a `#result` without a child,
`div.removeChild(div.firstChild)` is called with `null` and throws: nothing is rendered,
the name field keeps its value and the rejection is left unhandled. -/
theorem genderize_without_child :
    (Chejjari.run chejjariEmpty [.submit "alice", .settle 0 (.json aliceData)]).result = [] ∧
    (Chejjari.run chejjariEmpty [.submit "alice", .settle 0 (.json aliceData)]).nameInput =
      "alice" ∧
    (Chejjari.run chejjariEmpty [.submit "alice", .settle 0 (.json aliceData)]).unhandled =
      [.typeError] := by
  decide

/-- C8: in Chejjari's `genderize`, for a non-empty name `n` and a parsed body with
`gender = g` and `probability = pr`, the result is replaced in place: the child that
`#result` holds is removed and a `p` element with the single text node
`Result : n is P% g` is added (`P` the string of `pr * 100`, `g` as a string), the name
field is emptied and nothing is thrown. The child to replace is the one the page gives
`#result`, or the `p` element of the previous lookup. -/
theorem C8_genderize_result (p : Chejjari.Page) (v : String) (data g pr : Value)
    (first : Node) (rest : List Node)
    (hfresh : ∀ x ∈ p.pending, x.1 ≠ p.nextReq) (hname : v ≠ "")
    (hg : data.get "gender" = .ok g) (hpr : data.get "probability" = .ok pr)
    (hchild : p.result = first :: rest) :
    (Chejjari.run p [.submit v, .settle p.nextReq (.json data)]).result =
      rest ++ [.element {
        id := p.nextId, tag := "p", classList := [],
        content := .nodes ["Result : " ++ v ++ " is " ++
          (Number.mul pr.toNumber (Number.ofNat 100)).toString ++ "% " ++ g.toStr] }] ∧
    (Chejjari.run p [.submit v, .settle p.nextReq (.json data)]).nameInput = "" ∧
    (Chejjari.run p [.submit v, .settle p.nextReq (.json data)]).unhandled = p.unhandled := by
  rw [chejjari_run_submit_settle p v _ hfresh hname]
  simp [Chejjari.genderize.onSettled, Chejjari.genderize.onData, Chejjari.finish,
    Fetched.outcome, andThen, hg, hpr, hchild, createElement, Element.appendText]

/-- C8 on the input `alice` with `{gender: "female", probability: 0.96}` and a `#result`
holding one placeholder node. -/
theorem C8_genderize_result_witness :
    (∀ x ∈ chejjariIdle.pending, x.1 ≠ chejjariIdle.nextReq) ∧ "alice" ≠ "" ∧
    chejjariIdle.result = [.text " "] ∧
    (Chejjari.run chejjariIdle [.submit "alice", .settle 0 (.json aliceData)]).result =
      [.element {
        id := 0, tag := "p", classList := [],
        content := .nodes ["Result : alice is 96% female"] }] ∧
    (Chejjari.run chejjariIdle [.submit "alice", .settle 0 (.json aliceData)]).nameInput =
      "" := by
  have h := C8_genderize_result chejjariIdle "alice" aliceData (.str "female")
    (.num (Number.ofDecimal 96 (-2))) (.text " ") [] (by simp [chejjariIdle]) (by decide)
    rfl rfl rfl
  rw [show chejjariIdle.nextReq = 0 from rfl, Value.toNumber, ninetySix] at h
  exact ⟨by simp [chejjariIdle], by decide, rfl, h.1, h.2.1⟩

/-! ## Failed requests -/

/-- C5, as stated, fails for Chejjari's `getNewFact`: its promise chain has no rejection
handler, so a network error is neither logged nor shown and is left unhandled. -/
theorem C5_getNewFact_unhandled :
    (FactScript.run .chejjari factPageTwo [.click, .settle 0 .failed]).unhandled =
      [Error.network] ∧
    (FactScript.run .chejjari factPageTwo [.click, .settle 0 .failed]).console = [] ∧
    (FactScript.run .chejjari factPageTwo [.click, .settle 0 .failed]).children =
      factPageTwo.children := by
  decide

/-- C5, amended: a failed request (`fetch` rejects, or the body is not JSON) is caught
where the script has a handler: Boufous's `script.js` and Lahbabi's `cat.js` log the error
and leave the fact container alone, Lahbabi's `gender.js` logs it and shows a fixed
message; in each no rejection is left unhandled. Chejjari's `getNewFact` and `genderize`
and the React `App` effect have no handler: the rejection is left unhandled, and the
container, the alerts and the `messages` state stay as they were. -/
theorem C5_failure_handling (r : Fetched) (err : Error) (hfail : r.outcome = .error err) :
    (∀ (sc : FactScript) (p : FactPage), sc = .boufous ∨ sc = .lahbabi →
      (sc.run p [.click, .settle p.nextReq r]).unhandled = p.unhandled ∧
      (sc.run p [.click, .settle p.nextReq r]).console = p.console ++ [err] ∧
      (sc.run p [.click, .settle p.nextReq r]).children = p.children) ∧
    (∀ (p : LahbabiGender.Page) (v : String),
      (∀ x ∈ p.pending, x.1 ≠ p.nextReq) → trim v ≠ "" →
      (LahbabiGender.run p [.submit v, .settle p.nextReq r]).unhandled = p.unhandled ∧
      (LahbabiGender.run p [.submit v, .settle p.nextReq r]).console = p.console ++ [err] ∧
      (LahbabiGender.run p [.submit v, .settle p.nextReq r]).resultHTML =
        "Error fetching data. Please try again later.") ∧
    (∀ p : FactPage,
      (FactScript.run .chejjari p [.click, .settle p.nextReq r]).unhandled =
        p.unhandled ++ [err] ∧
      (FactScript.run .chejjari p [.click, .settle p.nextReq r]).console = p.console ∧
      (FactScript.run .chejjari p [.click, .settle p.nextReq r]).children = p.children) ∧
    (∀ (p : Chejjari.Page) (v : String),
      (∀ x ∈ p.pending, x.1 ≠ p.nextReq) → v ≠ "" →
      (Chejjari.run p [.submit v, .settle p.nextReq r]).unhandled = p.unhandled ++ [err] ∧
      (Chejjari.run p [.submit v, .settle p.nextReq r]).result = p.result ∧
      (Chejjari.run p [.submit v, .settle p.nextReq r]).alerts = p.alerts) ∧
    (∀ s : App.State,
      (App.finish (App.onSettled r (App.effect s))).unhandled = s.unhandled ++ [err] ∧
      (App.finish (App.onSettled r (App.effect s))).messages = s.messages) := by
  refine ⟨?_, ?_, ?_, ?_, ?_⟩
  · intro sc p hsc
    rcases hsc with h | h <;> subst h <;>
      simp [fact_run_click_settle, FactScript.onSettled, Boufous.onSettled,
        LahbabiCat.onSettled, andThen, orCatch, hfail, FactPage.logError, FactPage.finish,
        FactPage.fetch]
  · intro p v hfresh hname
    rw [lahbabi_run_submit_settle p v _ hfresh hname]
    simp [LahbabiGender.onSettled, LahbabiGender.onError, LahbabiGender.finish, andThen,
      orCatch, hfail]
  · intro p
    simp [fact_run_click_settle, FactScript.onSettled, Chejjari.getNewFact.onSettled,
      andThen, hfail, FactPage.finish, FactPage.fetch]
  · intro p v hfresh hname
    rw [chejjari_run_submit_settle p v _ hfresh hname]
    simp [Chejjari.genderize.onSettled, Chejjari.finish, andThen, hfail]
  · intro s
    simp [App.onSettled, App.finish, App.effect, andThen, hfail]

/-- C5, amended, on a network failure: Boufous logs it, Chejjari's `getNewFact` leaves it
unhandled. -/
theorem C5_failure_handling_witness :
    Fetched.failed.outcome = .error Error.network ∧
    (FactScript.run .boufous factPageTwo [.click, .settle 0 .failed]).unhandled = [] ∧
    (FactScript.run .chejjari factPageTwo [.click, .settle 0 .failed]).unhandled =
      [Error.network] :=
  ⟨rfl, ((C5_failure_handling .failed .network rfl).1 .boufous factPageTwo (Or.inl rfl)).1,
    ((C5_failure_handling .failed .network rfl).2.2.1 factPageTwo).1⟩

/-! ## Cat-fact feed: several requests in flight -/

/-- A property read on a value that is not `null` or `undefined` does not throw. -/
theorem value_get_of_not_nullish (v : Value) (key : String) (hv : v.isNullish = false) :
    v.get key = .ok (v.prop key) := by
  cases v <;> simp_all [Value.isNullish, Value.get, Value.prop]

/-- The loop over two event sequences in a row. -/
theorem fact_run_append (sc : FactScript) (p : FactPage) (evs₁ evs₂ : List FactEvent) :
    sc.run p (evs₁ ++ evs₂) = sc.run (sc.run p evs₁) evs₂ := by
  simp [FactScript.run, List.foldl_append]

/-- After `k` triggers in a row `k` new requests are in flight and nothing else of the page
has moved. -/
theorem fact_run_clicks (sc : FactScript) (k : Nat) : ∀ p : FactPage,
    sc.run p (List.replicate k .click) =
      { p with
        requests := p.requests ++ List.replicate k "https://catfact.ninja/fact"
        pending := p.pending ++ List.range' p.nextReq k
        nextReq := p.nextReq + k } := by
  induction k with
  | zero => intro p; simp [FactScript.run]
  | succ k ih =>
    intro p
    have hstep : sc.run p (List.replicate (k + 1) .click) =
        sc.run p.fetch (List.replicate k .click) := by
      simp [FactScript.run, List.replicate_succ, FactScript.step]
    rw [hstep, ih]
    simp [FactPage.fetch, List.replicate_succ, List.range'_succ, Nat.add_assoc,
      Nat.add_comm 1 k]

/-- The timer callback leaves tag and content of every node alone. -/
theorem node_payload_showFact (id : Nat) (n : Node) :
    (Node.showFact id n).payload = n.payload := by
  cases n with
  | text data => rfl
  | element el =>
    by_cases h : el.id = id
    · by_cases hc : "show-fact" ∈ el.classList <;>
        simp [Node.showFact, h, Node.payload, Element.addClass, hc]
    · simp [Node.showFact, h, Node.payload]

/-- The timer of an element created later does not touch the nodes that were there. -/
theorem node_map_showFact_old (id base : Nat) (old : List Node)
    (hold : ∀ el, Node.element el ∈ old → el.id < base) (hid : base ≤ id) :
    old.map (Node.showFact id) = old := by
  conv_rhs => rw [← List.map_id old]
  apply List.map_congr_left
  intro n hn
  cases n with
  | text data => rfl
  | element el =>
    have := hold el hn
    have hne : el.id ≠ id := by omega
    simp [Node.showFact, hne]

/-- Boufous's and Lahbabi's cat-fact scripts, one response with a readable body: exactly
one element is put in front of the container, carrying the expected tag and content; no
error is logged or left unhandled, and the only timer added is the one of the new
element. -/
theorem fact_step_arrival (sc : FactScript) (hsc : sc = .boufous ∨ sc = .lahbabi)
    (q : FactPage) (req : Nat) (data : Value) (hdata : data.isNullish = false)
    (hreq : req ∈ q.pending) :
    ∃ el : Element,
      (sc.step q (.settle req (.json data))).children = .element el :: q.children ∧
      (Node.element el).payload = some (sc.expectedPayload data) ∧
      (sc.step q (.settle req (.json data))).pending = q.pending.erase req ∧
      (sc.step q (.settle req (.json data))).console = q.console ∧
      (sc.step q (.settle req (.json data))).unhandled = q.unhandled ∧
      (sc.step q (.settle req (.json data))).nextId = q.nextId + 1 ∧
      ∀ t ∈ (sc.step q (.settle req (.json data))).timers, t ∈ q.timers ∨ t = q.nextId := by
  have hget := value_get_of_not_nullish data "fact" hdata
  rcases hsc with h | h <;> subst h
  · refine ⟨{ id := q.nextId, tag := "div", classList := ["fact"],
              content := .html (data.prop "fact").toLegacyDOMString }, ?_⟩
    simp [FactScript.step, hreq, FactScript.onSettled, Boufous.onSettled, Boufous.onData,
      Fetched.outcome, andThen, orCatch, hget, FactPage.finish, createElement,
      Element.addClass, Node.payload, FactScript.expectedPayload]
  · refine ⟨{ id := q.nextId, tag := "div", classList := ["fact"],
              content := .rendered (data.prop "fact").toLegacyDOMString }, ?_⟩
    simp [FactScript.step, hreq, FactScript.onSettled, LahbabiCat.onSettled,
      LahbabiCat.onData, Fetched.outcome, andThen, orCatch, hget, FactPage.finish,
      createElement, Element.addClass, Node.payload, FactScript.expectedPayload]
    exact fun t ht => Or.inl ht

/-- Invariant of the loop while responses arrive and timers fire: the container is the
elements added so far in front of the nodes `old` it started with, and every pending timer
belongs to an element created after `old`. Each response that arrives adds its element in
front; at the end no request is in flight. -/
theorem fact_run_arrivals (sc : FactScript) (hsc : sc = .boufous ∨ sc = .lahbabi)
    (old : List Node) (base : Nat) (hold : ∀ el, Node.element el ∈ old → el.id < base) :
    ∀ (evs : List FactEvent) (q : FactPage) (added : List Node),
      q.children = added ++ old → base ≤ q.nextId → (∀ t ∈ q.timers, base ≤ t) →
      (∀ ev ∈ evs, ev.isArrivalOrTimer = true) →
      ((evs.filterMap FactEvent.arrival).map Prod.fst).Perm q.pending →
      (sc.run q evs).console = q.console ∧ (sc.run q evs).unhandled = q.unhandled ∧
      (sc.run q evs).pending = [] ∧
      ∃ added' : List Node, (sc.run q evs).children = added' ++ old ∧
        added'.map Node.payload =
          ((evs.filterMap FactEvent.arrival).reverse.map
              fun a => some (sc.expectedPayload a.2)) ++ added.map Node.payload := by
  intro evs
  induction evs with
  | nil =>
    intro q added hch _ _ _ hperm
    have hp : q.pending = [] := by simpa using hperm.symm
    exact ⟨rfl, rfl, hp, added, hch, by simp⟩
  | cons ev evs ih =>
    intro q added hch hbase htimers hevs hperm
    have hev := hevs ev (List.mem_cons_self _ _)
    have hrest : ∀ e ∈ evs, e.isArrivalOrTimer = true :=
      fun e he => hevs e (List.mem_cons_of_mem _ he)
    have hrun : sc.run q (ev :: evs) = sc.run (sc.step q ev) evs := by
      simp [FactScript.run]
    rw [hrun]
    cases ev with
    | click => simp [FactEvent.isArrivalOrTimer] at hev
    | settle req r =>
      cases r with
      | failed => simp [FactEvent.isArrivalOrTimer] at hev
      | malformed => simp [FactEvent.isArrivalOrTimer] at hev
      | json data =>
        have hdata : data.isNullish = false := by
          simpa [FactEvent.isArrivalOrTimer] using hev
        have hperm' : (req :: (evs.filterMap FactEvent.arrival).map Prod.fst).Perm q.pending := by
          simpa [FactEvent.arrival] using hperm
        have hreq : req ∈ q.pending := hperm'.subset (List.mem_cons_self _ _)
        obtain ⟨el, hch', hpay, hpend, hcon, hunh, hnext, htim⟩ :=
          fact_step_arrival sc hsc q req data hdata hreq
        have hperm'' : ((evs.filterMap FactEvent.arrival).map Prod.fst).Perm
            (sc.step q (.settle req (.json data))).pending := by
          rw [hpend]
          exact (List.cons_perm_iff_perm_erase.mp hperm').2
        obtain ⟨h1, h2, h3, added', h4, h5⟩ :=
          ih (sc.step q (.settle req (.json data))) (.element el :: added)
            (by rw [hch', hch]; rfl) (by omega)
            (fun t ht => by
              rcases htim t ht with h | h
              · exact htimers t h
              · omega)
            hrest hperm''
        refine ⟨h1.trans hcon, h2.trans hunh, h3, added', h4, ?_⟩
        rw [h5]
        simp [FactEvent.arrival, hpay]
    | timeout id =>
      by_cases hid : id ∈ q.timers
      · have hstep : sc.step q (.timeout id) =
            { q with timers := q.timers.erase id,
                     children := q.children.map (Node.showFact id) } := by
          simp [FactScript.step, hid]
        obtain ⟨h1, h2, h3, added', h4, h5⟩ :=
          ih (sc.step q (.timeout id)) (added.map (Node.showFact id))
            (by
              rw [hstep]
              simp only [hch, List.map_append]
              rw [node_map_showFact_old id base old hold (htimers id hid)])
            (by rw [hstep]; exact hbase)
            (fun t ht => by
              rw [hstep] at ht
              exact htimers t (List.mem_of_mem_erase ht))
            hrest (by rw [hstep]; simpa [FactEvent.arrival] using hperm)
        refine ⟨by rw [h1, hstep], by rw [h2, hstep], h3, added', h4, ?_⟩
        rw [h5]
        simp [FactEvent.arrival, node_payload_showFact, Function.comp_def]
      · have hstep : sc.step q (.timeout id) = q := by
          simp [FactScript.step, hid]
        rw [hstep]
        obtain ⟨h1, h2, h3, added', h4, h5⟩ :=
          ih q added hch hbase htimers hrest (by simpa [FactEvent.arrival] using hperm)
        refine ⟨h1, h2, h3, added', h4, ?_⟩
        rw [h5]
        simp [FactEvent.arrival]

/-- Chejjari's `getNewFact`, one response with a readable body: exactly one `li` element
is put after the children of the list, carrying the expected content; nothing is left
unhandled and no timer is added. -/
theorem fact_step_arrival_append (q : FactPage) (req : Nat) (data : Value)
    (hdata : data.isNullish = false) (hreq : req ∈ q.pending) :
    ∃ el : Element,
      (FactScript.step .chejjari q (.settle req (.json data))).children =
        q.children ++ [.element el] ∧
      (Node.element el).payload = some (FactScript.expectedPayload .chejjari data) ∧
      (FactScript.step .chejjari q (.settle req (.json data))).pending = q.pending.erase req ∧
      (FactScript.step .chejjari q (.settle req (.json data))).console = q.console ∧
      (FactScript.step .chejjari q (.settle req (.json data))).unhandled = q.unhandled ∧
      (FactScript.step .chejjari q (.settle req (.json data))).timers = q.timers := by
  have hget := value_get_of_not_nullish data "fact" hdata
  refine ⟨{ id := q.nextId, tag := "li", classList := [],
            content := .nodes [(data.prop "fact").toStr] }, ?_⟩
  simp [FactScript.step, hreq, FactScript.onSettled, Chejjari.getNewFact.onSettled,
    Chejjari.getNewFact.onData, Fetched.outcome, andThen, hget, FactPage.finish,
    createElement, Element.appendText, Node.payload, FactScript.expectedPayload]

/-- Invariant of the loop of Chejjari's `getNewFact` while responses arrive: the list is
the nodes `old` it started with followed by the elements added so far, in arrival order;
no timer is ever pending, so a timer event does nothing. -/
theorem fact_run_arrivals_append (old : List Node) :
    ∀ (evs : List FactEvent) (q : FactPage) (added : List Node),
      q.children = old ++ added → q.timers = [] →
      (∀ ev ∈ evs, ev.isArrivalOrTimer = true) →
      ((evs.filterMap FactEvent.arrival).map Prod.fst).Perm q.pending →
      (FactScript.run .chejjari q evs).console = q.console ∧
      (FactScript.run .chejjari q evs).unhandled = q.unhandled ∧
      (FactScript.run .chejjari q evs).pending = [] ∧
      ∃ added' : List Node, (FactScript.run .chejjari q evs).children = old ++ added' ∧
        added'.map Node.payload =
          added.map Node.payload ++ (evs.filterMap FactEvent.arrival).map
            fun a => some (FactScript.expectedPayload .chejjari a.2) := by
  intro evs
  induction evs with
  | nil =>
    intro q added hch _ _ hperm
    have hp : q.pending = [] := by simpa using hperm.symm
    exact ⟨rfl, rfl, hp, added, hch, by simp⟩
  | cons ev evs ih =>
    intro q added hch htimers hevs hperm
    have hev := hevs ev (List.mem_cons_self _ _)
    have hrest : ∀ e ∈ evs, e.isArrivalOrTimer = true :=
      fun e he => hevs e (List.mem_cons_of_mem _ he)
    have hrun : FactScript.run .chejjari q (ev :: evs) =
        FactScript.run .chejjari (FactScript.step .chejjari q ev) evs := by
      simp [FactScript.run]
    rw [hrun]
    cases ev with
    | click => simp [FactEvent.isArrivalOrTimer] at hev
    | settle req r =>
      cases r with
      | failed => simp [FactEvent.isArrivalOrTimer] at hev
      | malformed => simp [FactEvent.isArrivalOrTimer] at hev
      | json data =>
        have hdata : data.isNullish = false := by
          simpa [FactEvent.isArrivalOrTimer] using hev
        have hperm' : (req :: (evs.filterMap FactEvent.arrival).map Prod.fst).Perm q.pending := by
          simpa [FactEvent.arrival] using hperm
        have hreq : req ∈ q.pending := hperm'.subset (List.mem_cons_self _ _)
        obtain ⟨el, hch', hpay, hpend, hcon, hunh, htim⟩ :=
          fact_step_arrival_append q req data hdata hreq
        have hperm'' : ((evs.filterMap FactEvent.arrival).map Prod.fst).Perm
            (FactScript.step .chejjari q (.settle req (.json data))).pending := by
          rw [hpend]
          exact (List.cons_perm_iff_perm_erase.mp hperm').2
        obtain ⟨h1, h2, h3, added', h4, h5⟩ :=
          ih (FactScript.step .chejjari q (.settle req (.json data))) (added ++ [.element el])
            (by rw [hch', hch, List.append_assoc]) (by rw [htim, htimers]) hrest hperm''
        refine ⟨h1.trans hcon, h2.trans hunh, h3, added', h4, ?_⟩
        rw [h5]
        simp [FactEvent.arrival, hpay]
    | timeout id =>
      have hstep : FactScript.step .chejjari q (.timeout id) = q := by
        simp [FactScript.step, htimers]
      rw [hstep]
      obtain ⟨h1, h2, h3, added', h4, h5⟩ :=
        ih q added hch htimers hrest (by simpa [FactEvent.arrival] using hperm)
      refine ⟨h1, h2, h3, added', h4, ?_⟩
      rw [h5]
      simp [FactEvent.arrival]

/-- C7: in each cat-fact script, after `k` triggers on an idle page the `k` responses
(bodies with readable properties) may arrive in any order, with timers firing in between:
nothing is logged or left unhandled, no request stays in flight, and the container ends as
its earlier nodes, unchanged, plus `k` new nodes, one per response and carrying the fact of
that response. Boufous's and Lahbabi's scripts put each new node in front (the latest
arrival first), Chejjari's `getNewFact` at the end. -/
theorem C7_concurrent_fact_fetches (sc : FactScript) (p : FactPage) (k : Nat)
    (evs : List FactEvent)
    (hpending : p.pending = []) (htimers : p.timers = [])
    (hids : ∀ el, Node.element el ∈ p.children → el.id < p.nextId)
    (hevs : ∀ ev ∈ evs, ev.isArrivalOrTimer = true)
    (harr : ((evs.filterMap FactEvent.arrival).map Prod.fst).Perm (List.range' p.nextReq k)) :
    (sc.run p (List.replicate k .click ++ evs)).console = p.console ∧
    (sc.run p (List.replicate k .click ++ evs)).unhandled = p.unhandled ∧
    (sc.run p (List.replicate k .click ++ evs)).pending = [] ∧
    ∃ added : List Node, added.length = k ∧
      (sc.run p (List.replicate k .click ++ evs)).children = sc.arrange added p.children ∧
      added.map Node.payload =
        (evs.filterMap FactEvent.arrival).map fun a => some (sc.expectedPayload a.2) := by
  have hk : (evs.filterMap FactEvent.arrival).length = k := by
    have := harr.length_eq
    simpa using this
  rw [fact_run_append, fact_run_clicks]
  by_cases hsc : sc = .boufous ∨ sc = .lahbabi
  · obtain ⟨h1, h2, h3, added, h4, h5⟩ :=
      fact_run_arrivals sc hsc p.children p.nextId hids evs
        { p with
          requests := p.requests ++ List.replicate k "https://catfact.ninja/fact"
          pending := p.pending ++ List.range' p.nextReq k
          nextReq := p.nextReq + k } []
        (by simp) (Nat.le_refl _) (by simp [htimers]) hevs (by simpa [hpending] using harr)
    have h5' : added.map Node.payload =
        ((evs.filterMap FactEvent.arrival).map fun a => some (sc.expectedPayload a.2)).reverse := by
      simpa using h5
    refine ⟨h1, h2, h3, added.reverse, ?_, ?_, ?_⟩
    · have hlen := congrArg List.length h5'
      simp at hlen
      simp [hlen, hk]
    · rw [h4]
      rcases hsc with h | h <;> subst h <;> simp [FactScript.arrange]
    · rw [List.map_reverse, h5', List.reverse_reverse]
  · have hc : sc = .chejjari := by
      cases sc <;> simp_all
    subst hc
    obtain ⟨h1, h2, h3, added, h4, h5⟩ :=
      fact_run_arrivals_append p.children evs
        { p with
          requests := p.requests ++ List.replicate k "https://catfact.ninja/fact"
          pending := p.pending ++ List.range' p.nextReq k
          nextReq := p.nextReq + k } []
        (by simp) (by simp [htimers]) hevs (by simpa [hpending] using harr)
    refine ⟨h1, h2, h3, added, ?_, ?_, by simpa using h5⟩
    · have hlen := congrArg List.length h5
      simp at hlen
      simp [hlen, hk]
    · rw [h4]
      simp [FactScript.arrange]

/-- C7 with `k = 2` in Boufous's script: the second request is answered first, the timer
of its element fires, then the first request is answered. -/
theorem C7_concurrent_fact_fetches_witness :
    (∀ ev ∈ twoArrivals, ev.isArrivalOrTimer = true) ∧
    ((twoArrivals.filterMap FactEvent.arrival).map Prod.fst).Perm
      (List.range' factPageTwo.nextReq 2) ∧
    (FactScript.run .boufous factPageTwo (List.replicate 2 .click ++ twoArrivals)).children =
      [.element { id := 3, tag := "div", classList := ["fact"], content := .html "first" },
       .element { id := 2, tag := "div", classList := ["fact", "show-fact"],
                  content := .html "second" },
       .text "n1", .text "n2"] ∧
    ∃ added : List Node, added.length = 2 ∧
      (FactScript.run .boufous factPageTwo (List.replicate 2 .click ++ twoArrivals)).children =
        added.reverse ++ factPageTwo.children :=
  have h := C7_concurrent_fact_fetches .boufous factPageTwo 2 twoArrivals rfl rfl
    (by simp [factPageTwo]) (by decide) (by decide)
  ⟨by decide, by decide, by decide, h.2.2.2.imp fun _ ha => ⟨ha.1, ha.2.1⟩⟩

/-! ## Gender lookup: the result is replaced, not accumulated -/

/-- Chejjari's `genderize`: a response with a readable body, for a request in flight with
the name `name`, turns a `#result` with one child into one `p` element with the result
text. -/
theorem chejjari_step_arrival (q : Chejjari.Page) (req : Nat) (name : String) (data : Value)
    (hone : q.result.length = 1) (hreq : q.pending.lookup req = some name)
    (hdata : data.isNullish = false) :
    (Chejjari.step q (.settle req (.json data))).result =
      [.element { id := q.nextId, tag := "p", classList := [],
                  content := .nodes [Chejjari.expectedResult name data] }] := by
  obtain ⟨first, hfirst⟩ := List.length_eq_one.mp hone
  simp [Chejjari.step, hreq, Chejjari.genderize.onSettled, Chejjari.genderize.onData,
    Fetched.outcome, andThen, value_get_of_not_nullish data _ hdata, hfirst, Chejjari.finish,
    createElement, Element.appendText, Chejjari.expectedResult]

/-- Chejjari's `genderize`: a trigger does not touch `#result`. -/
theorem chejjari_step_submit_result (q : Chejjari.Page) (v : String) :
    (Chejjari.step q (.submit v)).result = q.result := by
  by_cases hv : v = "" <;> simp [Chejjari.step, Chejjari.genderize, hv]

/-- Chejjari's `genderize`: triggers alone leave `#result` as it is. -/
theorem chejjari_run_submits_result (evs : List GenderEvent)
    (hevs : ∀ ev ∈ evs, ev.isSubmit = true) :
    ∀ q : Chejjari.Page, (Chejjari.run q evs).result = q.result := by
  induction evs with
  | nil => intro q; rfl
  | cons ev evs ih =>
    intro q
    have hev := hevs ev (List.mem_cons_self _ _)
    have hrun : Chejjari.run q (ev :: evs) = Chejjari.run (Chejjari.step q ev) evs := by
      simp [Chejjari.run]
    rw [hrun, ih (fun e he => hevs e (List.mem_cons_of_mem _ he))]
    cases ev with
    | submit v => exact chejjari_step_submit_result q v
    | settle req r => simp [GenderEvent.isSubmit] at hev

/-- Chejjari's `genderize`: over triggers and successful responses `#result` keeps exactly
one child. -/
theorem chejjari_run_result_length (evs : List GenderEvent)
    (hevs : ∀ ev ∈ evs, ev.isLookupOrArrival = true) :
    ∀ q : Chejjari.Page, q.result.length = 1 → (Chejjari.run q evs).result.length = 1 := by
  induction evs with
  | nil => intro q hq; exact hq
  | cons ev evs ih =>
    intro q hq
    have hev := hevs ev (List.mem_cons_self _ _)
    have hrun : Chejjari.run q (ev :: evs) = Chejjari.run (Chejjari.step q ev) evs := by
      simp [Chejjari.run]
    rw [hrun]
    apply ih (fun e he => hevs e (List.mem_cons_of_mem _ he))
    cases ev with
    | submit v => rw [chejjari_step_submit_result]; exact hq
    | settle req r =>
      cases r with
      | failed => simp [GenderEvent.isLookupOrArrival] at hev
      | malformed => simp [GenderEvent.isLookupOrArrival] at hev
      | json data =>
        have hdata : data.isNullish = false := by
          simpa [GenderEvent.isLookupOrArrival] using hev
        cases hreq : q.pending.lookup req with
        | none => simpa [Chejjari.step, hreq] using hq
        | some name => rw [chejjari_step_arrival q req name data hq hreq hdata]; rfl

/-- Lahbabi's `gender.js`: a response with a readable body, for a request in flight with
the name `name`, makes the message of that response the whole markup of `#result`. -/
theorem lahbabi_step_arrival (q : LahbabiGender.Page) (req : Nat) (name : String)
    (data : Value) (hreq : q.pending.lookup req = some name) (hdata : data.isNullish = false) :
    (LahbabiGender.step q (.settle req (.json data))).resultHTML =
      LahbabiGender.expectedMessage name data := by
  have hmale : (" is male with " : String) = " is " ++ "male with " := by decide
  have hfemale : (" is female with " : String) = " is " ++ "female with " := by decide
  simp only [LahbabiGender.step, hreq, LahbabiGender.onSettled, LahbabiGender.onData,
    Fetched.outcome, andThen, value_get_of_not_nullish data _ hdata, orCatch,
    LahbabiGender.finish, LahbabiGender.expectedMessage]
  by_cases h1 : (data.prop "gender").strictEqStr "male" = true
  · simp [h1, String.append_assoc]
    rw [hmale, String.append_assoc]
  · by_cases h2 : (data.prop "gender").strictEqStr "female" = true
    · simp [h1, h2, String.append_assoc]
      rw [hfemale, String.append_assoc]
    · simp [h1, h2, String.append_assoc]

/-- Lahbabi's `gender.js`: triggers with a non-blank name leave `#result` as it is. -/
theorem lahbabi_run_submits_result (evs : List GenderEvent)
    (hevs : ∀ ev ∈ evs, ev.isGuardedSubmit = true) :
    ∀ q : LahbabiGender.Page, (LahbabiGender.run q evs).resultHTML = q.resultHTML := by
  induction evs with
  | nil => intro q; rfl
  | cons ev evs ih =>
    intro q
    have hev := hevs ev (List.mem_cons_self _ _)
    have hrun : LahbabiGender.run q (ev :: evs) =
        LahbabiGender.run (LahbabiGender.step q ev) evs := by
      simp [LahbabiGender.run]
    rw [hrun, ih (fun e he => hevs e (List.mem_cons_of_mem _ he))]
    cases ev with
    | submit v =>
      have hv : trim v ≠ "" := by simpa [GenderEvent.isGuardedSubmit] using hev
      simp [LahbabiGender.step, LahbabiGender.onClick, hv]
    | settle req r => simp [GenderEvent.isGuardedSubmit] at hev

/-- C9: gender-lookup results are replaced in place. In Chejjari's `genderize`, from a
`#result` with a single child, any sequence of triggers and successful responses leaves
exactly one child, and once a response has been handled (and only triggers follow) that
child is the `p` element with the result text of that response, built from the name its
request was issued for. In Lahbabi's `gender.js` the whole markup of `#result` is the
message of the response handled last, whatever happened before it. -/
theorem C9_gender_result_replaced :
    (∀ (p : Chejjari.Page) (evs₁ evs₂ : List GenderEvent) (req : Nat) (name : String)
        (data : Value),
      p.result.length = 1 →
      (∀ ev ∈ evs₁, ev.isLookupOrArrival = true) → (∀ ev ∈ evs₂, ev.isSubmit = true) →
      (Chejjari.run p evs₁).pending.lookup req = some name → data.isNullish = false →
      (Chejjari.run p evs₁).result.length = 1 ∧
      (Chejjari.run p (evs₁ ++ .settle req (.json data) :: evs₂)).result =
        [.element { id := (Chejjari.run p evs₁).nextId, tag := "p", classList := [],
                    content := .nodes [Chejjari.expectedResult name data] }]) ∧
    (∀ (p : LahbabiGender.Page) (evs₁ evs₂ : List GenderEvent) (req : Nat) (name : String)
        (data : Value),
      (∀ ev ∈ evs₂, ev.isGuardedSubmit = true) →
      (LahbabiGender.run p evs₁).pending.lookup req = some name → data.isNullish = false →
      (LahbabiGender.run p (evs₁ ++ .settle req (.json data) :: evs₂)).resultHTML =
        LahbabiGender.expectedMessage name data) := by
  refine ⟨?_, ?_⟩
  · intro p evs₁ evs₂ req name data hone h₁ h₂ hreq hdata
    have hlen := chejjari_run_result_length evs₁ h₁ p hone
    refine ⟨hlen, ?_⟩
    have hsplit : Chejjari.run p (evs₁ ++ .settle req (.json data) :: evs₂) =
        Chejjari.run (Chejjari.step (Chejjari.run p evs₁) (.settle req (.json data))) evs₂ := by
      simp [Chejjari.run, List.foldl_append]
    rw [hsplit, chejjari_run_submits_result evs₂ h₂,
      chejjari_step_arrival _ req name data hlen hreq hdata]
  · intro p evs₁ evs₂ req name data h₂ hreq hdata
    have hsplit : LahbabiGender.run p (evs₁ ++ .settle req (.json data) :: evs₂) =
        LahbabiGender.run
          (LahbabiGender.step (LahbabiGender.run p evs₁) (.settle req (.json data))) evs₂ := by
      simp [LahbabiGender.run, List.foldl_append]
    rw [hsplit, lahbabi_run_submits_result evs₂ h₂,
      lahbabi_step_arrival _ req name data hreq hdata]

/-- C9 on two lookups, `alice` then `bob`, answered in the reverse order: after the answer
for `bob` and then the answer for `alice`, `#result` holds the result for `alice` only. -/
theorem C9_gender_result_replaced_witness :
    chejjariIdle.result.length = 1 ∧
    (Chejjari.run chejjariIdle twoLookups).pending.lookup 0 = some "alice" ∧
    (Chejjari.run chejjariIdle (twoLookups ++ [.settle 0 (.json aliceData)])).result =
      [.element { id := 1, tag := "p", classList := [],
                  content := .nodes ["Result : alice is 96% female"] }] ∧
    (LahbabiGender.run lahbabiIdle (twoLookups ++ [.settle 0 (.json aliceData)])).resultHTML =
      "The gender of alice is female with 96% certainty." := by
  have hc := (C9_gender_result_replaced.1 chejjariIdle twoLookups [] 0 "alice" aliceData rfl
    (by decide) (by decide) (by decide) rfl).2
  have hl := C9_gender_result_replaced.2 lahbabiIdle twoLookups [] 0 "alice" aliceData
    (by decide) (by decide) rfl
  have hnext : (Chejjari.run chejjariIdle twoLookups).nextId = 1 := by decide
  have hres : Chejjari.expectedResult "alice" aliceData = "Result : alice is 96% female" := by
    set_option maxRecDepth 8000 in decide
  have hmsg : LahbabiGender.expectedMessage "alice" aliceData =
      "The gender of alice is female with 96% certainty." := by
    set_option maxRecDepth 8000 in decide
  rw [hnext, hres] at hc
  rw [hmsg] at hl
  exact ⟨rfl, by decide, hc, hl⟩

/-! ## Request identities stay fresh -/

/-- Lahbabi's `gender.js`: the promise chain leaves the requests in flight and the request
counter alone. -/
theorem lahbabi_settled_pending (name : String) (r : Fetched) (q : LahbabiGender.Page) :
    (LahbabiGender.finish (LahbabiGender.onSettled name r q)).pending = q.pending ∧
    (LahbabiGender.finish (LahbabiGender.onSettled name r q)).nextReq = q.nextReq := by
  rcases r with _ | _ | data
  · simp [LahbabiGender.onSettled, LahbabiGender.onError, LahbabiGender.finish,
      Fetched.outcome, andThen, orCatch]
  · simp [LahbabiGender.onSettled, LahbabiGender.onError, LahbabiGender.finish,
      Fetched.outcome, andThen, orCatch]
  · simp only [LahbabiGender.onSettled, LahbabiGender.onData, Fetched.outcome, andThen]
    cases data.get "gender" <;> cases data.get "probability" <;>
      simp [LahbabiGender.onError, LahbabiGender.finish, orCatch]

/-- Lahbabi's `gender.js`: on every page the loop reaches from one whose requests in
flight are older than the request counter, they still are; the identity of the next
request is never one in flight. -/
theorem lahbabi_run_fresh (evs : List GenderEvent) :
    ∀ p : LahbabiGender.Page, (∀ x ∈ p.pending, x.1 < p.nextReq) →
      ∀ x ∈ (LahbabiGender.run p evs).pending, x.1 < (LahbabiGender.run p evs).nextReq := by
  induction evs with
  | nil => intro p hp; exact hp
  | cons ev evs ih =>
    intro p hp
    have hrun : LahbabiGender.run p (ev :: evs) =
        LahbabiGender.run (LahbabiGender.step p ev) evs := by
      simp [LahbabiGender.run]
    rw [hrun]
    apply ih
    cases ev with
    | submit v =>
      by_cases hv : trim v = ""
      · simpa [LahbabiGender.step, LahbabiGender.onClick, hv] using hp
      · intro x hx
        simp only [LahbabiGender.step, LahbabiGender.onClick, hv, ne_eq, not_false_eq_true,
          ite_true, List.mem_append, List.mem_singleton] at hx ⊢
        rcases hx with hx | hx
        · exact Nat.lt_succ_of_lt (hp x hx)
        · subst hx
          exact Nat.lt_succ_self _
    | settle req r =>
      cases hreq : p.pending.lookup req with
      | none => simpa [LahbabiGender.step, hreq] using hp
      | some name =>
        intro x hx
        simp only [LahbabiGender.step, hreq] at hx ⊢
        rw [(lahbabi_settled_pending name r _).1] at hx
        rw [(lahbabi_settled_pending name r _).2]
        exact hp x (List.mem_of_mem_filter hx)

/-- Chejjari's `genderize`: the promise chain leaves the requests in flight and the request
counter alone. -/
theorem chejjari_settled_pending (name : String) (r : Fetched) (q : Chejjari.Page) :
    (Chejjari.finish (Chejjari.genderize.onSettled name r q)).pending = q.pending ∧
    (Chejjari.finish (Chejjari.genderize.onSettled name r q)).nextReq = q.nextReq := by
  rcases r with _ | _ | data
  · simp [Chejjari.genderize.onSettled, Chejjari.finish, Fetched.outcome, andThen]
  · simp [Chejjari.genderize.onSettled, Chejjari.finish, Fetched.outcome, andThen]
  · simp only [Chejjari.genderize.onSettled, Chejjari.genderize.onData, Fetched.outcome,
      andThen]
    cases data.get "gender" <;> cases data.get "probability" <;> cases q.result <;>
      simp [Chejjari.finish]

/-- Chejjari's `genderize`: on every page the loop reaches from one whose requests in
flight are older than the request counter, they still are. -/
theorem chejjari_run_fresh (evs : List GenderEvent) :
    ∀ p : Chejjari.Page, (∀ x ∈ p.pending, x.1 < p.nextReq) →
      ∀ x ∈ (Chejjari.run p evs).pending, x.1 < (Chejjari.run p evs).nextReq := by
  induction evs with
  | nil => intro p hp; exact hp
  | cons ev evs ih =>
    intro p hp
    have hrun : Chejjari.run p (ev :: evs) = Chejjari.run (Chejjari.step p ev) evs := by
      simp [Chejjari.run]
    rw [hrun]
    apply ih
    cases ev with
    | submit v =>
      by_cases hv : v = ""
      · simpa [Chejjari.step, Chejjari.genderize, hv] using hp
      · intro x hx
        simp only [Chejjari.step, Chejjari.genderize, hv, ite_false, List.mem_append,
          List.mem_singleton] at hx ⊢
        rcases hx with hx | hx
        · exact Nat.lt_succ_of_lt (hp x hx)
        · subst hx
          exact Nat.lt_succ_self _
    | settle req r =>
      cases hreq : p.pending.lookup req with
      | none => simpa [Chejjari.step, hreq] using hp
      | some name =>
        intro x hx
        simp only [Chejjari.step, hreq] at hx ⊢
        rw [(chejjari_settled_pending name r _).1] at hx
        rw [(chejjari_settled_pending name r _).2]
        exact hp x (List.mem_of_mem_filter hx)
